import Mathlib

/-!
Verification development for the Trello criticality-analysis backend.

The definitions below are a shallow embedding of the Python sources:
  app/services/analysis_orchestrator.py   (AnalysisOrchestrator)
  app/services/ticket_service.py          (TicketService)
  app/services/reanalysis_service.py      (ReanalysisService)
  app/services/criticality_analyzer.py    (CriticalityAnalyzer response parsing)
  app/services/vectorizer.py              (VectorizerService)
  app/routes/upload.py                    (upload_document)
  app/models/trello_models.py             (Config, Analyse, AnalyseBoard,
                                           Tickets, TicketAnalysisHistory)
  tools/add_etiquette_tool.py             (priority label management)
  tools/add_comment_tool.py               (comment posting)

External collaborators (the Trello REST API, the LLM, the vector store and
LangChain text splitting) are modelled as explicit oracle parameters; the
database session is modelled as an explicit state record threaded through
the operations.  SQL timestamps are modelled by a logical clock.
-/

/-! ## String helpers (Python semantics) -/

/-- Code-point comparison of char lists, mirroring the lexicographic order
used by `json.dumps(..., sort_keys=True)` on keys. -/
def charsLe : List Char → List Char → Bool
  | [], _ => true
  | _ :: _, [] => false
  | a :: as, b :: bs =>
    if a.toNat < b.toNat then true
    else if b.toNat < a.toNat then false
    else charsLe as bs

def strLeB (a b : String) : Bool := charsLe a.data b.data

/-- Check `needle` appears at the start of `hay` (char-list version). -/
def leadsWithCL : List Char → List Char → Bool
  | _, [] => true
  | [], _ :: _ => false
  | a :: as, b :: bs => a == b && leadsWithCL as bs

/-- Substring containment on char lists, mirroring the Python operator
`needle in hay`. -/
def occursCL : List Char → List Char → Bool
  | [], needle => needle.isEmpty
  | h :: hs, needle => leadsWithCL (h :: hs) needle || occursCL hs needle

/-- Substring containment for strings, mirroring the Python operator
`needle in hay`. -/
def containsSub (hay needle : String) : Bool := occursCL hay.data needle.data

/-- Python `str.capitalize()`: first character upper-cased, the rest
lower-cased. -/
def pyCapitalize (s : String) : String :=
  match s.data with
  | [] => ""
  | c :: cs => String.mk (c.toUpper :: cs.map Char.toLower)

/-- Truthiness of an optional string, mirroring Python where both `None`
and the empty string are falsy. -/
def optStrTruthy : Option String → Bool
  | none => false
  | some s => !s.isEmpty

/-- Truthiness of an optional integer id, mirroring Python where both
`None` and `0` are falsy. -/
def optNatTruthy : Option Nat → Bool
  | none => false
  | some n => n != 0

/-- Python `str.upper()` (character-wise upper-casing). -/
def pyUpper (s : String) : String := String.mk (s.data.map Char.toUpper)

/-- Python `str.lower()` (character-wise lower-casing). -/
def pyLower (s : String) : String := String.mk (s.data.map Char.toLower)

/-- ASCII whitespace recognized by `str.strip()` (the responses parsed
here never contain the rarer whitespace code points). -/
def isPySpace (c : Char) : Bool :=
  c == ' ' || c == '\t' || c == '\n' || c == '\r'

/-- Python `str.strip()`. -/
def pyStrip (s : String) : String :=
  String.mk (((s.data.dropWhile isPySpace).reverse.dropWhile isPySpace).reverse)

/-- Rendering of the logical clock as a timestamp string (stands in for
`datetime.utcnow().isoformat()`). -/
def timeStr (n : Nat) : String := "ts-" ++ toString n

/-! ## JSON values

Model of the JSON blobs stored in the `config.config_data`,
`tickets.ticket_metadata` and `ticket_analysis_history.analyse_justification`
columns.  Arrays and objects carry their own spine types so that all
recursions below are structural. -/

mutual
inductive Json where
  | null : Json
  | bool (b : Bool) : Json
  | num (n : Int) : Json
  | str (s : String) : Json
  | arr (elems : JsonArr) : Json
  | obj (fields : JsonMap) : Json

inductive JsonArr where
  | nil : JsonArr
  | cons (hd : Json) (tl : JsonArr) : JsonArr

inductive JsonMap where
  | nil : JsonMap
  | cons (key : String) (val : Json) (tl : JsonMap) : JsonMap
end

/-- Key lookup in a JSON object spine (first match, like a Python dict). -/
def JsonMap.getF : JsonMap → String → Option Json
  | .nil, _ => none
  | .cons k v t, key => if k == key then some v else t.getF key

/-- Key update in a JSON object spine: replace in place when present,
append otherwise (Python dict assignment keeps insertion order). -/
def JsonMap.setF : JsonMap → String → Json → JsonMap
  | .nil, key, v => .cons key v .nil
  | .cons k w t, key, v => if k == key then .cons k v t else .cons k w (t.setF key v)

/-- Key removal from a JSON object spine, mirroring `dict.pop(key, None)`. -/
def JsonMap.popF : JsonMap → String → JsonMap
  | .nil, _ => .nil
  | .cons k w t, key => if k == key then t else .cons k w (t.popF key)

/-- Field lookup on a JSON value (`'key' in d` / `d.get('key')` on dicts). -/
def Json.getField : Json → String → Option Json
  | .obj fs, k => fs.getF k
  | _, _ => none

/-- Field update on a JSON value; non-objects are left unchanged (the
sources only ever assign into dicts). -/
def Json.setField : Json → String → Json → Json
  | .obj fs, k, v => .obj (fs.setF k v)
  | j, _, _ => j

/-- Field removal on a JSON value, mirroring `dict.pop(key, None)`. -/
def Json.popField : Json → String → Json
  | .obj fs, k => .obj (fs.popF k)
  | j, _ => j

/-- Python truthiness of a JSON value: `None`, `False`, `0`, `""`, `[]`
and the empty dict are falsy. -/
def Json.truthy : Json → Bool
  | .null => false
  | .bool b => b
  | .num n => n != 0
  | .str s => !s.isEmpty
  | .arr .nil => false
  | .arr (.cons _ _) => true
  | .obj .nil => false
  | .obj (.cons _ _ _) => true

/-- Optional string to JSON, for metadata fields that may be `None`. -/
def jOptStr : Option String → Json
  | none => .null
  | some s => .str s

/-- String quoting for serialization.  Escape sequences are not modelled;
the configuration payloads compared by the cache check never contain
characters that would be escaped, and only equality of serializations is
ever consumed. -/
def jsonQuote (s : String) : String := "\"" ++ s ++ "\""

/-- Insertion step for sorting serialized object fields by key. -/
def insertByKey (p : String × String) : List (String × String) → List (String × String)
  | [] => [p]
  | q :: qs => if strLeB p.1 q.1 then p :: q :: qs else q :: insertByKey p qs

/-- Insertion sort of serialized object fields by key, mirroring
`sort_keys=True`. -/
def sortFieldsByKey : List (String × String) → List (String × String)
  | [] => []
  | p :: ps => insertByKey p (sortFieldsByKey ps)

mutual
/-- Serialization mirroring `json.dumps(value, sort_keys=True, default=str)`:
object keys are emitted in sorted order. -/
def Json.ser : Json → String
  | .null => "null"
  | .bool b => if b then "true" else "false"
  | .num n => toString n
  | .str s => jsonQuote s
  | .arr es => "[" ++ String.intercalate ", " (JsonArr.serElems es) ++ "]"
  | .obj fs =>
      "\x7b" ++
        String.intercalate ", "
          ((sortFieldsByKey (JsonMap.serFields fs)).map
            (fun kv => jsonQuote kv.1 ++ ": " ++ kv.2)) ++
      "\x7d"

def JsonArr.serElems : JsonArr → List String
  | .nil => []
  | .cons h t => Json.ser h :: JsonArr.serElems t

def JsonMap.serFields : JsonMap → List (String × String)
  | .nil => []
  | .cons k v t => (k, Json.ser v) :: JsonMap.serFields t
end

/-! ## tools/add_etiquette_tool.py — priority labels (claim C6) -/

structure TrelloLabel where
  id : String
  name : String
  color : String
deriving Repr, DecidableEq

/-- State of the Trello boards visible to the label tool: labels defined
per board and labels attached per card, plus a counter for ids of labels
created through the REST API. -/
structure TrelloBoards where
  boardLabels : List (String × List TrelloLabel)
  cardLabels : List (String × List TrelloLabel)
  nextLabelId : Nat
deriving Repr, DecidableEq

def assocGetD (m : List (String × List TrelloLabel)) (k : String) : List TrelloLabel :=
  match m.find? (fun kv => kv.1 == k) with
  | some kv => kv.2
  | none => []

def assocSet (m : List (String × List TrelloLabel)) (k : String) (v : List TrelloLabel) :
    List (String × List TrelloLabel) :=
  match m with
  | [] => [(k, v)]
  | kv :: rest => if kv.1 == k then (k, v) :: rest else kv :: assocSet rest k v

def priorityLabelNames : List String :=
  ["Priority - High", "Priority - Medium", "Priority - Low"]

/-- Color mapping of `create_criticality_label`:
`color_mapping.get(criticality_level.upper(), 'gray')`. -/
def criticalityColor (level : String) : String :=
  if pyUpper level == "HIGH" then "red"
  else if pyUpper level == "MEDIUM" then "orange"
  else if pyUpper level == "LOW" then "green"
  else "gray"

/-- Embedding of `get_or_create_criticality_label` (plus the
`create_criticality_label` it calls): fetch the board labels, return the
first label named `Priority - {Level}`, or create one with the mapped
color.  Returns the label record together with the updated board state;
attaching by the returned id attaches exactly this record because Trello
label ids are unique. -/
def get_or_create_criticality_label (st : TrelloBoards) (boardId level : String) :
    TrelloLabel × TrelloBoards :=
  let labelName := "Priority - " ++ pyCapitalize level
  let labels := assocGetD st.boardLabels boardId
  match labels.find? (fun l => l.name == labelName) with
  | some l => (l, st)
  | none =>
      let created : TrelloLabel :=
        { id := "label-" ++ toString st.nextLabelId
          name := labelName
          color := criticalityColor level }
      (created,
        { st with
            boardLabels := assocSet st.boardLabels boardId (labels ++ [created])
            nextLabelId := st.nextLabelId + 1 })

/-- Deletion step of `apply_criticality_label_with_creation`: remove from
the card every label whose name is one of the priority-label names. -/
def deletePriorityLabels (st : TrelloBoards) (cardId : String) : TrelloBoards :=
  let cls := assocGetD st.cardLabels cardId
  let remaining := cls.filter (fun l => !(priorityLabelNames.contains l.name))
  { st with cardLabels := assocSet st.cardLabels cardId remaining }

/-- Embedding of `apply_criticality_label_with_creation`: delete every
label on the card whose name is a priority-label name, get or create the
board label named `Priority - {Level}`, then attach it to the card. -/
def apply_criticality_label_with_creation (st : TrelloBoards) (cardId boardId level : String) :
    TrelloBoards :=
  let st1 := deletePriorityLabels st cardId
  let (lbl, st2) := get_or_create_criticality_label st1 boardId level
  { st2 with cardLabels := assocSet st2.cardLabels cardId (assocGetD st2.cardLabels cardId ++ [lbl]) }

/-! ## criticality_analyzer.py — response parsing (claim C7) -/

/-- Embedding of the response-parsing logic of
`CriticalityAnalyzer.analyze_card_criticality` (lines 391-416): the
response text is stripped and upper-cased, `OUT_OF_CONTEXT` anywhere wins,
then `HIGH`, then `MEDIUM`, then `LOW`, defaulting to `LOW`. -/
def parse_criticality_response (responseText : String) : String :=
  let t := pyUpper (pyStrip responseText)
  if containsSub t "OUT_OF_CONTEXT" then "OUT_OF_CONTEXT"
  else if containsSub t "HIGH" then "HIGH"
  else if containsSub t "MEDIUM" then "MEDIUM"
  else if containsSub t "LOW" then "LOW"
  else "LOW"

/-- Modelled from the spec sentence of claim C7 (for comparison only): the
first of HIGH, MEDIUM or LOW *by position in the text*. -/
def firstLevelByPositionCL : List Char → Option String
  | [] => none
  | c :: cs =>
    if leadsWithCL (c :: cs) "HIGH".data then some "HIGH"
    else if leadsWithCL (c :: cs) "MEDIUM".data then some "MEDIUM"
    else if leadsWithCL (c :: cs) "LOW".data then some "LOW"
    else firstLevelByPositionCL cs

/-- Modelled from the spec sentence of claim C7 (for comparison only). -/
def firstLevelByPositionSpec (t : String) : Option String :=
  firstLevelByPositionCL t.data

/-! ## tools/add_comment_tool.py — comment posting (claim C10) -/

/-- Request issued by `add_comment_to_card`. -/
structure CommentRequest where
  url : String
  apiKey : String
  token : String
  text : String
deriving Repr, DecidableEq

/-- Embedding of `add_comment_to_card`: the POST body sends the comment
text exactly as received (`data = {'text': comment}`). -/
def add_comment_to_card (apiKey cardId token comment : String) : CommentRequest :=
  { url := "https://api.trello.com/1/cards/" ++ cardId ++ "/actions/comments"
    apiKey := apiKey
    token := token
    text := comment }

/-! ## Relational data model (app/models/trello_models.py) -/

/-- Row of the `config` table. -/
structure ConfigRow where
  id : Nat
  config_data : Json

/-- Row of the `analyse` table. -/
structure AnalyseRow where
  analyse_id : Nat
  reference : String
  reanalyse : Bool

/-- Row of the `analyse_board` table. -/
structure AnalyseBoardRow where
  id : Nat
  analyse_id : Nat
  platform : Option String

/-- Row of the `tickets` table; `ticket_id` is the external (Trello) card
id, declared `unique=True` in the model. -/
structure TicketRow where
  id_ticket : Nat
  analyse_board_id : Nat
  ticket_id : String
  board_name : Option String
  ticket_metadata : Option Json

/-- Row of the `ticket_analysis_history` table.  The JSON column
`analyse_justification = {'justification': v}` is modelled by its inner
value `justification`; the `criticality_level` column is declared as
`Enum('low', 'medium', 'high')` in the model. -/
structure HistoryRow where
  ticket_id : Nat
  analyse_id : Nat
  criticality_level : Option String
  justification : Option String
  analyzed_at : Nat

/-- The persistent database state plus autoincrement counters and the
logical clock used for timestamps. -/
structure DBState where
  configs : List ConfigRow
  analyses : List AnalyseRow
  analyseBoards : List AnalyseBoardRow
  tickets : List TicketRow
  histories : List HistoryRow
  nextTicketId : Nat
  nextAnalyseId : Nat
  nextBoardScopeId : Nat
  clock : Nat

/-- Truthiness of the `ticket_metadata` JSON column (`None` and the empty
dict are falsy in Python). -/
def metaTruthy : Option Json → Bool
  | none => false
  | some j => j.truthy

/-- Embedding of `Tickets.get_by_ticket_id`: first row whose external id
matches. -/
def DBState.getTicketByTicketId (s : DBState) (tid : String) : Option TicketRow :=
  s.tickets.find? (fun t => t.ticket_id == tid)

/-- Embedding of `Config.get_config_by_board`: first config row whose
`config_data.boardId` equals the board id (the SQL `JSON_EXTRACT`
comparison matches string values). -/
def DBState.getConfigByBoard (s : DBState) (boardId : String) : Option ConfigRow :=
  s.configs.find? (fun c =>
    match c.config_data.getField "boardId" with
    | some (Json.str b) => b == boardId
    | _ => false)

/-- Embedding of the query
`TicketAnalysisHistory.query.filter_by(ticket_id=...).order_by(analyzed_at.desc()).first()`:
the matching row with the greatest timestamp (rows inserted by the code
have strictly increasing timestamps). -/
def DBState.latestHistoryFor (s : DBState) (tid : Nat) : Option HistoryRow :=
  (s.histories.filter (fun h => h.ticket_id == tid)).foldl
    (fun acc h =>
      match acc with
      | none => some h
      | some a => if a.analyzed_at ≤ h.analyzed_at then some h else some a)
    none

/-- Update of the first ticket row satisfying `p` (the sources always
mutate the single ORM object returned by `get_by_ticket_id`, i.e. the
first row matching the external id). -/
def updateFirstTicket (p : TicketRow → Bool) (g : TicketRow → TicketRow) :
    List TicketRow → List TicketRow
  | [] => []
  | t :: ts => if p t then g t :: ts else t :: updateFirstTicket p g ts

/-- Metadata rewrite performed by `Tickets.invalidate_analysis_cache` on
the fetched ticket object. -/
def dropAnalysisResult (t : TicketRow) : TicketRow :=
  if metaTruthy t.ticket_metadata then
    { t with ticket_metadata := some ((t.ticket_metadata.getD (Json.obj .nil)).popField "analysis_result") }
  else t

/-- Embedding of `Tickets.invalidate_analysis_cache`: pop
`analysis_result` from the metadata of the ticket with this external id,
when that ticket exists and its metadata is truthy. -/
def invalidate_analysis_cache (s : DBState) (tid : String) : DBState :=
  { s with tickets := updateFirstTicket (fun t => t.ticket_id == tid) dropAnalysisResult s.tickets }

/-! ## Orchestrator inputs and outputs -/

/-- Card data as returned by the Trello list-cards endpoint. -/
structure Card where
  id : String
  name : String
  desc : String
  due : Option String
  labels : Json
  members : Json
  url : Option String

/-- Per-card payload assembled by `analyze_list` for the analyzer and for
persistence; `list_id` is only populated just before `ensure_ticket`
(`{**payload, 'list_id': persisted_list_id}`). -/
structure CardPayload where
  id : String
  name : String
  desc : String
  due : Option String
  list_name : String
  board_id : String
  board_name : String
  labels : Json
  members : Json
  url : Option String
  list_id : Option String

def Card.toPayload (c : Card) (listName boardId boardName : String) : CardPayload :=
  { id := c.id, name := c.name, desc := c.desc, due := c.due
    list_name := listName, board_id := boardId, board_name := boardName
    labels := c.labels, members := c.members, url := c.url, list_id := none }

/-- Outcome of one LLM-backed analysis of one card, the shape shared by
`analyze_card_criticality`, `analyze_cards_batch` elements and
`reanalyze_card_criticality`: those functions only ever populate the keys
`criticality_level`, `justification`, `success` and `error` (besides the
card identity, which the orchestrator takes from the payload). -/
structure AnalyzerOutcome where
  criticality_level : Option String
  justification : Option String
  success : Bool
  error : Option String

/-- Per-card result dict of `analyze_list`; keys that the code may add
later (`actions`, `card_moved`, ...) are modelled as fields with the
defaults standing for an absent key. -/
structure AnalysisResult where
  success : Bool
  criticality_level : Option String
  justification : Option String
  from_cache : Bool
  card_id : String
  card_name : String
  error : Option String
  label_added : Bool
  comment_added : Bool
  card_moved : Bool
  target_list_id : Option String
  target_list_name : Option String

/-- Result entry synthesized from the latest history row on a cache hit
(analysis_orchestrator.py lines 67-75). -/
def cacheHitResult (c : Card) (h : HistoryRow) : AnalysisResult :=
  { success := true
    criticality_level :=
      match h.criticality_level with
      | some s => if s.isEmpty then none else some (pyUpper s)
      | none => none
    justification := h.justification
    from_cache := true
    card_id := c.id
    card_name := c.name
    error := none
    label_added := false, comment_added := false, card_moved := false
    target_list_id := none, target_list_name := none }

/-- Result dict built from one analyzer outcome for one payload
(`analyze_cards_batch` result elements / `analyze_card_criticality`). -/
def mkResult (p : CardPayload) (o : AnalyzerOutcome) : AnalysisResult :=
  { success := o.success
    criticality_level := o.criticality_level
    justification := o.justification
    from_cache := false
    card_id := p.id
    card_name := p.name
    error := o.error
    label_added := false, comment_added := false, card_moved := false
    target_list_id := none, target_list_name := none }

/-- Entry of the `saved_tickets` list. -/
structure SavedTicket where
  ticket_id : String
  card_name : String
  from_cache : Bool
deriving Repr, DecidableEq

/-- Board-side effects fanned out by the orchestrator, in call order. -/
inductive BoardAction where
  | label (cardId : String) (level : String)
  | comment (cardId : String) (text : String)
  | move (cardId : String) (newListId : String)
deriving Repr, DecidableEq

def BoardAction.cardId : BoardAction → String
  | .label c _ => c
  | .comment c _ => c
  | .move c _ => c

/-- Oracle for the three Trello mutation endpoints: `none` means the call
succeeded, `some e` means it raised an exception with message `e`
(`apply_criticality_label_with_creation`, `add_comment_to_card` and
`move_card_to_list` all raise on any HTTP failure). -/
structure BoardEnv where
  labelErr : String → Option String
  commentErr : String → Option String
  moveErr : String → Option String

/-- Criticality distribution of the summary. -/
structure CriticalityCounts where
  critical_total : Nat
  non_critical : Nat
  high : Nat
  medium : Nat
  low : Nat

structure BoardAnalysis where
  board_id : String
  board_name : String
  list_id : String
  list_name : String
  total_cards : Nat
  counts : Option CriticalityCounts

structure RunOutput where
  board_analysis : BoardAnalysis
  cards_analysis : List AnalysisResult
  saved_tickets : List SavedTicket

/-- Return behaviour of `analyze_list`: a provider fetch failure is
returned as an `{error: ...}` dict, an uncaught Python exception
propagates (`raised`), otherwise the summary is returned. -/
inductive RunRet where
  | fetchFailed (msg : String)
  | raised (msg : String)
  | ok (out : RunOutput)

/-! ## TicketService (app/services/ticket_service.py) -/

/-- Embedding of `TicketService.ensure_ticket`: return the existing row
for this external id unchanged, otherwise insert a fresh row built from
the card payload. -/
def ensure_ticket (s : DBState) (analyseBoardId : Nat) (card : CardPayload)
    (boardName : String) (listName : Option String) : TicketRow × DBState :=
  match s.getTicketByTicketId card.id with
  | some t => (t, s)
  | none =>
      let meta : Json := Json.obj
        (.cons "name" (Json.str card.name)
        (.cons "desc" (Json.str card.desc)
        (.cons "due" (jOptStr card.due)
        (.cons "url" (jOptStr card.url)
        (.cons "labels" card.labels
        (.cons "members" card.members
        (.cons "board_id" (Json.str card.board_id)
        (.cons "board_name" (Json.str boardName)
        (.cons "list_id" (jOptStr card.list_id)
        (.cons "list_name" (jOptStr listName) .nil))))))))))
      let t : TicketRow :=
        { id_ticket := s.nextTicketId
          analyse_board_id := analyseBoardId
          ticket_id := card.id
          board_name := some boardName
          ticket_metadata := some meta }
      (t, { s with tickets := s.tickets ++ [t], nextTicketId := s.nextTicketId + 1 })

/-- Embedding of `TicketService.save_history`: insert-only, the level is
lower-cased when truthy (`result.get('criticality_level').lower() if
result.get('criticality_level') else None`). -/
def save_history (s : DBState) (t : TicketRow) (analyseId : Nat) (r : AnalysisResult) : DBState :=
  let h : HistoryRow :=
    { ticket_id := t.id_ticket
      analyse_id := analyseId
      criticality_level :=
        match r.criticality_level with
        | some lv => if lv.isEmpty then none else some (pyLower lv)
        | none => none
      justification := r.justification
      analyzed_at := s.clock }
  { s with histories := s.histories ++ [h], clock := s.clock + 1 }

/-- Embedding of `TicketService.update_ticket_list`: rewrite the list id,
list name and `last_moved_at` inside the metadata of the ticket object. -/
def update_ticket_list (s : DBState) (t : TicketRow) (newListId : String)
    (newListName : Option String) : DBState :=
  let meta := t.ticket_metadata.getD (Json.obj .nil)
  let m1 := meta.setField "list_id" (Json.str newListId)
  let m2 := match newListName with
    | some n => m1.setField "list_name" (Json.str n)
    | none => m1
  let m3 := m2.setField "last_moved_at" (Json.str (timeStr s.clock))
  { s with
      clock := s.clock + 1
      tickets := updateFirstTicket (fun x => x.ticket_id == t.ticket_id)
        (fun x => { x with ticket_metadata := some m3 }) s.tickets }

/-! ## AnalysisOrchestrator (app/services/analysis_orchestrator.py) -/

/-- Embedding of `AnalysisOrchestrator._is_cache_valid_for_config`: the
cache is valid iff a board config with truthy payload exists, the ticket
metadata is truthy and contains `last_analysis_config`, and the two
payloads have equal key-sorted JSON serializations. -/
def is_cache_valid_for_config (s : DBState) (t : TicketRow) (boardId : String) : Bool :=
  match s.getConfigByBoard boardId with
  | none => false
  | some cfg =>
    if !cfg.config_data.truthy then false
    else if !metaTruthy t.ticket_metadata then false
    else
      let meta := t.ticket_metadata.getD (Json.obj .nil)
      match meta.getField "last_analysis_config" with
      | none => false
      | some lastCfg => Json.ser cfg.config_data == Json.ser lastCfg

/-- Cache-hit decision of the classification loop for one card
(lines 56-79): when a ticket with this external id exists, has truthy
metadata, the config-based cache check passes and a latest history row
exists, synthesize the cached result (and, when persisting, the
`saved_tickets` entry). -/
def cacheHitInfo (s : DBState) (analyseBoardId : Option Nat) (boardId : String) (card : Card) :
    Option (AnalysisResult × List SavedTicket) :=
  match s.getTicketByTicketId card.id with
  | some t =>
    if metaTruthy t.ticket_metadata then
      if is_cache_valid_for_config s t boardId then
        match s.latestHistoryFor t.id_ticket with
        | some h =>
            some (cacheHitResult card h,
              if optNatTruthy analyseBoardId then
                [{ ticket_id := card.id, card_name := card.name, from_cache := true }]
              else [])
        | none => none
      else none
    else none
  | none => none

/-- State update of the classification loop for one card that is not
served from the cache: when the ticket exists with truthy metadata and
the cache check failed, the config changed and the cache is invalidated
(line 83); in every other fall-through the state is unchanged. -/
def classifyStepState (s : DBState) (boardId : String) (card : Card) : DBState :=
  match s.getTicketByTicketId card.id with
  | some t =>
    if metaTruthy t.ticket_metadata then
      if is_cache_valid_for_config s t boardId then s
      else invalidate_analysis_cache s card.id
    else s
  | none => s

/-- Classification phase of `analyze_list` (lines 53-91): per card, serve
a cache hit from the latest history when the config is unchanged,
invalidate the cache when it changed, and otherwise enqueue the payload
for batch analysis.  Returns the updated state, the cache-hit results,
the cache-hit `saved_tickets` entries and the `to_analyze` queue. -/
def classifyCards (analyseBoardId : Option Nat) (boardId listId boardName listName : String) :
    DBState → List Card →
    DBState × List AnalysisResult × List SavedTicket × List CardPayload
  | s, [] => (s, [], [], [])
  | s, card :: rest =>
    match cacheHitInfo s analyseBoardId boardId card with
    | some rsv =>
      let rec0 := classifyCards analyseBoardId boardId listId boardName listName s rest
      (rec0.1, rsv.1 :: rec0.2.1, rsv.2 ++ rec0.2.2.1, rec0.2.2.2)
    | none =>
      let p := card.toPayload listName boardId boardName
      let rec0 := classifyCards analyseBoardId boardId listId boardName listName
        (classifyStepState s boardId card) rest
      (rec0.1, rec0.2.1, rec0.2.2.1, p :: rec0.2.2.2)

/-- Association-list insertion with replacement, mirroring assignment into
a Python dict (existing keys keep their position, new keys are appended). -/
def insertReplace {α : Type} (m : List (String × α)) (k : String) (v : α) : List (String × α) :=
  match m with
  | [] => [(k, v)]
  | kv :: rest => if kv.1 == k then (k, v) :: rest else kv :: insertReplace rest k v

def assocFind {α : Type} (m : List (String × α)) (k : String) : Option α :=
  match m.find? (fun kv => kv.1 == k) with
  | some kv => some kv.2
  | none => none

/-- String content of a JSON value, for `config_data['targetListId']`
(always a string in the stored configs). -/
def Json.asStringD : Json → String
  | .str s => s
  | _ => ""

/-- Optional string content of a JSON value, for
`config_data.get('targetListName')`. -/
def Json.asStrOpt : Json → Option String
  | .str s => some s
  | _ => none

/-- Move step of the per-card action block (lines 141-164).  The call
`Config.get_config_by_board_and_list` at line 146 does not exist on the
`Config` model, so that lookup always raises `AttributeError`, the
`except` clause fires, and the effective config is always
`Config.get_config_by_board(board_id)`. -/
def doMove (env : BoardEnv) (s : DBState) (boardId cid : String) (r : AnalysisResult)
    (acts : List BoardAction) : List BoardAction × Except String AnalysisResult :=
  match s.getConfigByBoard boardId with
  | none => (acts, .ok r)
  | some cfg =>
    if cfg.config_data.truthy then
      match cfg.config_data.getField "targetListId" with
      | none => (acts, .ok r)
      | some tv =>
        if tv.truthy then
          match env.moveErr cid with
          | some e => (acts, .error e)
          | none =>
            let tid := tv.asStringD
            let tname := (cfg.config_data.getField "targetListName").bind Json.asStrOpt
            (acts ++ [.move cid tid],
              .ok { r with card_moved := true, target_list_id := some tid, target_list_name := tname })
        else (acts, .ok r)
    else (acts, .ok r)

/-- Comment and move steps of the per-card action block (lines 135-164):
post the justification when truthy, then move when a target list is
configured.  An exception from a board call propagates. -/
def doCommentMove (env : BoardEnv) (s : DBState) (boardId cid : String) (r : AnalysisResult) :
    List BoardAction × Except String AnalysisResult :=
  if optStrTruthy r.justification then
    match env.commentErr cid with
    | some e => ([], .error e)
    | none =>
      doMove env s boardId cid { r with comment_added := true }
        [.comment cid (r.justification.getD "")]
  else
    doMove env s boardId cid r []

/-- Per-card action block (lines 128-164): apply the label, post the
comment, move the card.  No step is wrapped in try/except, so the first
failing board call raises out of the block. -/
def doActions (env : BoardEnv) (s : DBState) (boardId cid : String) (r : AnalysisResult) :
    List BoardAction × Except String AnalysisResult :=
  match env.labelErr cid with
  | some e => ([], .error e)
  | none =>
    let (acts, res) :=
      doCommentMove env s boardId cid { r with label_added := true }
    ([.label cid (r.criticality_level.getD "")] ++ acts, res)

/-- Config snapshot step of the persistence block (lines 178-190): when a
board config with truthy payload exists, write the snapshot
`{targetListId, listId, boardId, analyzed_at}` into the ticket metadata
under `last_analysis_config` (initializing the metadata dict when falsy),
updating both the ticket object and its row. -/
def snapshotConfig (s : DBState) (boardId : String) (t : TicketRow) : DBState × TicketRow :=
  match s.getConfigByBoard boardId with
  | none => (s, t)
  | some cfg =>
    if cfg.config_data.truthy then
      let meta0 := if metaTruthy t.ticket_metadata then t.ticket_metadata.getD (Json.obj .nil) else Json.obj .nil
      let snapJson : Json := Json.obj
        (.cons "targetListId" ((cfg.config_data.getField "targetListId").getD Json.null)
        (.cons "listId" ((cfg.config_data.getField "listId").getD Json.null)
        (.cons "boardId" ((cfg.config_data.getField "boardId").getD Json.null)
        (.cons "analyzed_at" (Json.str (timeStr s.clock)) .nil))))
      let meta := meta0.setField "last_analysis_config" snapJson
      let ts := updateFirstTicket (fun x => x.ticket_id == t.ticket_id)
        (fun x => { x with ticket_metadata := some meta }) s.tickets
      ({ s with clock := s.clock + 1, tickets := ts }, { t with ticket_metadata := some meta })
    else (s, t)

/-- History-append step of the persistence block (lines 192-205): resolve
the session id through the board scope, append one history row, and on a
moved card update the ticket list metadata. -/
def persistHistory (s : DBState) (analyseBoardId : Nat) (cid : String) (p : CardPayload)
    (r : AnalysisResult) (t : TicketRow) : DBState × List SavedTicket :=
  match s.analyseBoards.find? (fun b => b.id == analyseBoardId) with
  | none => (s, [])
  | some ab =>
    if ab.analyse_id != 0 then
      let s3 := save_history s t ab.analyse_id r
      let s4 :=
        if r.card_moved && optStrTruthy r.target_list_id then
          update_ticket_list s3 t (r.target_list_id.getD "") r.target_list_name
        else s3
      (s4, [{ ticket_id := cid, card_name := p.name, from_cache := false }])
    else (s, [])

/-- Persistence block of `analyze_list` (lines 165-205): ensure the
ticket, snapshot the board config into `metadata.last_analysis_config`,
append a history row, and on a move update the ticket list metadata. -/
def persistCard (s : DBState) (boardId listId listName boardName : String)
    (analyseBoardId : Option Nat) (cid : String) (p : CardPayload) (r : AnalysisResult) :
    DBState × List SavedTicket :=
  if optNatTruthy analyseBoardId && r.success then
    let persistedListId := if r.card_moved then r.target_list_id else some listId
    let persistedListName := if r.card_moved then r.target_list_name else some listName
    let ts1 := ensure_ticket s (analyseBoardId.getD 0)
      { p with list_id := persistedListId } boardName persistedListName
    let st2 := snapshotConfig ts1.2 boardId ts1.1
    persistHistory st2.1 (analyseBoardId.getD 0) cid p r st2.2
  else (s, [])

/-- Batch-result lookup with single-analysis fallback (lines 121-125). -/
def lookupResult (analyzeFn : CardPayload → AnalyzerOutcome)
    (batched : List (String × AnalysisResult)) (cid : String) (p : CardPayload) : AnalysisResult :=
  match assocFind batched cid with
  | some r => r
  | none => mkResult p (analyzeFn p)

/-- Condition of the action block (line 128):
`result.get('success') and result.get('criticality_level') not in (None, 'OUT_OF_CONTEXT')`. -/
def actionableResult (r : AnalysisResult) : Bool :=
  r.success
    && !(r.criticality_level == none)
    && !(r.criticality_level == some "OUT_OF_CONTEXT")

/-- Processing of one entry of `card_payload_map` (lines 117-206): look up
the batch result (falling back to a single analysis when absent), run the
action block when the result is actionable, then persist. -/
def processCard (env : BoardEnv) (analyzeFn : CardPayload → AnalyzerOutcome)
    (boardId listId boardName listName : String) (analyseBoardId : Option Nat)
    (batched : List (String × AnalysisResult)) (s : DBState) (cid : String) (p : CardPayload) :
    DBState × List BoardAction × Except String (AnalysisResult × List SavedTicket) :=
  let result0 := lookupResult analyzeFn batched cid p
  if actionableResult result0 then
    match doActions env s boardId cid result0 with
    | (acts, .error e) => (s, acts, .error e)
    | (acts, .ok r) =>
      let sv := persistCard s boardId listId listName boardName analyseBoardId cid p r
      (sv.1, acts, .ok (r, sv.2))
  else
    let sv := persistCard s boardId listId listName boardName analyseBoardId cid p result0
    (sv.1, [], .ok (result0, sv.2))

/-- Action-and-persistence loop of `analyze_list` over the entries of
`card_payload_map`; an exception raised while processing one card aborts
the remaining cards. -/
def actionLoop (env : BoardEnv) (analyzeFn : CardPayload → AnalyzerOutcome)
    (boardId listId boardName listName : String) (analyseBoardId : Option Nat)
    (batched : List (String × AnalysisResult)) :
    DBState → List (String × CardPayload) →
    DBState × List BoardAction × Except String (List AnalysisResult × List SavedTicket)
  | s, [] => (s, [], .ok ([], []))
  | s, (cid, p) :: rest =>
    match processCard env analyzeFn boardId listId boardName listName analyseBoardId batched s cid p with
    | (s1, acts, .error e) => (s1, acts, .error e)
    | (s1, acts, .ok (r, sv)) =>
      match actionLoop env analyzeFn boardId listId boardName listName analyseBoardId batched s1 rest with
      | (s2, acts2, .error e) => (s2, acts ++ acts2, .error e)
      | (s2, acts2, .ok (rs, svs)) => (s2, acts ++ acts2, .ok (r :: rs, sv ++ svs))

/-- Summary counts of `analyze_list` (lines 214-246).  The floating-point
`success_rate` is not modelled; the counts it is derived from are. -/
def summaryCounts (results : List AnalysisResult) : CriticalityCounts :=
  let successful := results.filter (fun r => r.success)
  { critical_total := successful.length
    non_critical := 0
    high := (successful.filter (fun r => r.criticality_level == some "HIGH")).length
    medium := (successful.filter (fun r => r.criticality_level == some "MEDIUM")).length
    low := (successful.filter (fun r => r.criticality_level == some "LOW")).length }

/-- Embedding of `AnalysisOrchestrator.analyze_list`.  `fetched` is the
outcome of the provider call `get_list_cards`; `analyzeFn` is the oracle
for `CriticalityAnalyzer` (batch elements and the single-card fallback
produce one result per payload, keyed by the payload id); `env` is the
oracle for the three board mutation endpoints.  Returns the final
database state, the trace of board calls made, and the return behaviour.
On `raised` the returned state carries the uncommitted session work; the
invariants proved below hold for it either way. -/
def analyze_list (s : DBState) (env : BoardEnv) (analyzeFn : CardPayload → AnalyzerOutcome)
    (boardId listId boardName listName : String) (analyseBoardId : Option Nat)
    (fetched : Except String (List Card)) :
    DBState × List BoardAction × RunRet :=
  match fetched with
  | .error msg => (s, [], .fetchFailed msg)
  | .ok cards =>
    if cards.isEmpty then
      (s, [], .ok
        { board_analysis :=
            { board_id := boardId, board_name := boardName, list_id := listId
              list_name := listName, total_cards := 0, counts := none }
          cards_analysis := []
          saved_tickets := [] })
    else
      let cls := classifyCards analyseBoardId boardId listId boardName listName s cards
      let toAnalyze := cls.2.2.2
      let batched := toAnalyze.foldl
        (fun m p => insertReplace m p.id (mkResult p (analyzeFn p))) []
      let payloadMap := toAnalyze.foldl (fun m p => insertReplace m p.id p) []
      let alr := actionLoop env analyzeFn boardId listId boardName listName analyseBoardId batched cls.1 payloadMap
      (alr.1, alr.2.1,
        match alr.2.2 with
        | .error e => RunRet.raised e
        | .ok arsn =>
          let results := cls.2.1 ++ arsn.1
          RunRet.ok
            { board_analysis :=
                { board_id := boardId, board_name := boardName, list_id := listId
                  list_name := listName, total_cards := results.length
                  counts := some (summaryCounts results) }
              cards_analysis := results
              saved_tickets := cls.2.2.1 ++ arsn.2 })

/-! ## ReanalysisService (app/services/reanalysis_service.py) -/

/-- JSON rendering of an analyzer outcome, for the
`metadata.analysis_result` soft cache written by `reanalyze`. -/
def outcomeJson (o : AnalyzerOutcome) (stamp : Nat) : Json :=
  Json.obj
    (.cons "criticality_level" (jOptStr o.criticality_level)
    (.cons "justification" (jOptStr o.justification)
    (.cons "success" (Json.bool o.success)
    (.cons "analyzed_at" (Json.str (timeStr stamp)) .nil))))

/-- Return value of `ReanalysisService.reanalyze`. -/
inductive ReanalyzeRet where
  | err (msg : String)
  | ok (sessionId : Nat) (reference : String)
deriving Repr, DecidableEq

/-- Embedding of `ReanalysisService.reanalyze`: look the ticket up by its
external id (error dict when absent), call the analyzer oracle with the
previous history, create a fresh `Analyse` with `reanalyse=True` and a
fresh `AnalyseBoard`, append one history row referencing the existing
ticket and the new session — note the source stores
`result.get('criticality_level')` without lower-casing — and store the
result into `metadata.analysis_result`. -/
def reanalyze (s : DBState) (g : TicketRow → Option HistoryRow → AnalyzerOutcome)
    (ticketId : String) : DBState × ReanalyzeRet :=
  match s.getTicketByTicketId ticketId with
  | none => (s, .err ("Ticket " ++ ticketId ++ " introuvable"))
  | some t =>
    let prev := s.latestHistoryFor t.id_ticket
    let result := g t prev
    let sess : AnalyseRow :=
      { analyse_id := s.nextAnalyseId
        reference := "REANALYSE-" ++ timeStr s.clock
        reanalyse := true }
    let s1 := { s with analyses := s.analyses ++ [sess], nextAnalyseId := s.nextAnalyseId + 1 }
    let ab : AnalyseBoardRow :=
      { id := s1.nextBoardScopeId, analyse_id := sess.analyse_id, platform := some "trello" }
    let s2 := { s1 with analyseBoards := s1.analyseBoards ++ [ab], nextBoardScopeId := s1.nextBoardScopeId + 1 }
    let h : HistoryRow :=
      { ticket_id := t.id_ticket
        analyse_id := sess.analyse_id
        criticality_level := result.criticality_level
        justification := result.justification
        analyzed_at := s2.clock }
    let s3 := { s2 with histories := s2.histories ++ [h], clock := s2.clock + 1 }
    let resJson := outcomeJson result s.clock
    let metaNew :=
      if metaTruthy t.ticket_metadata then
        (t.ticket_metadata.getD (Json.obj .nil)).setField "analysis_result" resJson
      else Json.obj (.cons "analysis_result" resJson .nil)
    let s4 := { s3 with
      tickets := updateFirstTicket (fun x => x.ticket_id == t.ticket_id)
        (fun x => { x with ticket_metadata := some metaNew }) s3.tickets }
    (s4, .ok sess.analyse_id sess.reference)

/-! ## Document ingestion (app/routes/upload.py, app/services/vectorizer.py) -/

/-- Chunk row of the vector store, as written by
`VectorizerService.vectorize_and_store`. -/
structure DocChunk where
  document_id : String
  filename : String
  chunk_index : Nat
  content : String
deriving Repr, DecidableEq

/-- Vector-store state: the stored chunks plus a counter standing in for
`uuid.uuid4()` document ids. -/
structure DocStore where
  chunks : List DocChunk
  nextDocId : Nat
deriving Repr, DecidableEq

/-- Reconstruction-and-comparison step of `check_duplicate_file` (lines
146-178): group the matching chunks by document id, order each group by
chunk index, concatenate, and compare with the candidate content after
stripping.  The source computes this but reports the file as existing on
both outcomes. -/
def reconstructedContentMatches (found : List DocChunk) (text : String) : Bool :=
  let docIds := (found.map (fun c => c.document_id)).eraseDups
  docIds.any (fun d =>
    let grp := found.filter (fun c => c.document_id == d)
    let sorted := grp.foldr (fun c acc => insertChunk c acc) []
    let reconstructed := String.join (sorted.map (fun c => c.content))
    pyStrip reconstructed == pyStrip text)
where
  insertChunk (c : DocChunk) : List DocChunk → List DocChunk
    | [] => [c]
    | d :: ds => if c.chunk_index ≤ d.chunk_index then c :: d :: ds else d :: insertChunk c ds

/-- Embedding of `VectorizerService.check_duplicate_file`: look the
filename up in the chunk metadata; when nothing matches the file does not
exist; when chunks match, the file is reported as existing whether or not
the reconstructed content equals the candidate content (both branches of
the source return `exists: True`). -/
def check_duplicate_file (st : DocStore) (filename : String) (content : Option String) : Bool :=
  let found := st.chunks.filter (fun c => c.filename == filename)
  if found.isEmpty then false
  else
    match content with
    | some text => if reconstructedContentMatches found text then true else true
    | none => true

/-- Embedding of `VectorizerService.vectorize_and_store`: a fresh document
id, one chunk row per text-splitter chunk.  The LangChain splitter is the
oracle parameter `split`. -/
def vectorize_and_store (split : String → List String) (st : DocStore)
    (content filename : String) : String × DocStore :=
  let docId := "doc-" ++ toString st.nextDocId
  let rows := (split content).enum.map (fun ic =>
    { document_id := docId, filename := filename
      chunk_index := ic.1, content := ic.2 : DocChunk })
  (docId, { chunks := st.chunks ++ rows, nextDocId := st.nextDocId + 1 })

/-- Return behaviour of the upload route. -/
inductive UploadRet where
  | badInput (msg : String)
  | conflict
  | okDoc (documentId : String) (filename : String) (contentLength : Nat)
deriving Repr, DecidableEq

/-- Embedding of `upload_document` (app/routes/upload.py lines 17-74),
starting from the secured filename and the extracted text content: an
empty extraction is a 400, a duplicate check hit is a 409 conflict, and
otherwise the content is vectorized and the fresh document id returned. -/
def upload_document (split : String → List String) (st : DocStore)
    (filename content : String) : DocStore × UploadRet :=
  if content.isEmpty then (st, .badInput "Impossible d extraire le contenu du fichier")
  else if check_duplicate_file st filename (some content) then (st, .conflict)
  else
    let (docId, st2) := vectorize_and_store split st content filename
    (st2, .okDoc docId filename content.length)

/-! ## Concrete states used by witnesses and counterexamples -/

/-- Concrete board state for the C6 witness: the card starts with two
stale priority labels and an unrelated label, and the board has no label
named `Priority - High` yet. -/
def c6Boards : TrelloBoards where
  boardLabels := [("b1", [⟨"L1", "Priority - Low", "green"⟩])]
  cardLabels := [("c1", [⟨"L1", "Priority - Low", "green"⟩, ⟨"L9", "Bug", "purple"⟩, ⟨"L2", "Priority - Medium", "orange"⟩])]
  nextLabelId := 0

/-- Trivial splitter used by the concrete C9 runs (one chunk per file). -/
def c9Split : String → List String := fun s => [s]

/-- Store after a first upload of the bytes "hello" as "a.txt". -/
def c9Store1 : DocStore := (upload_document c9Split { chunks := [], nextDocId := 0 } "a.txt" "hello").1

def c8Ticket : TicketRow :=
  { id_ticket := 1, analyse_board_id := 1, ticket_id := "X", board_name := some "B"
    ticket_metadata := some (Json.obj (.cons "name" (Json.str "Card X") .nil)) }

def c8State : DBState :=
  { configs := [], analyses := [], analyseBoards := [], tickets := [c8Ticket]
    histories := [], nextTicketId := 2, nextAnalyseId := 5, nextBoardScopeId := 7, clock := 3 }

/-- Reanalysis oracle standing for `reanalyze_card_criticality`, which
always reports its level as an upper-case string. -/
def c8Oracle : TicketRow → Option HistoryRow → AnalyzerOutcome :=
  fun _ _ => { criticality_level := some "HIGH", justification := some "Verified level", success := true, error := none }

def c8Result : AnalysisResult :=
  { success := true, criticality_level := some "HIGH", justification := some "Verified level"
    from_cache := false, card_id := "X", card_name := "Card X", error := none
    label_added := false, comment_added := false, card_moved := false
    target_list_id := none, target_list_name := none }

def c4Ticket : TicketRow :=
  { id_ticket := 9, analyse_board_id := 2, ticket_id := "card-9", board_name := some "B"
    ticket_metadata := some (Json.obj (.cons "name" (Json.str "Card 9") .nil)) }

def c4State : DBState :=
  { configs := [], analyses := [⟨1, "analyse_0", false⟩], analyseBoards := [⟨2, 1, some "trello"⟩]
    tickets := [c4Ticket], histories := [⟨9, 1, some "high", some "j", 0⟩]
    nextTicketId := 10, nextAnalyseId := 2, nextBoardScopeId := 3, clock := 4 }

def c4Oracle : TicketRow → Option HistoryRow → AnalyzerOutcome :=
  fun _ _ => { criticality_level := some "LOW", justification := some "now low", success := true, error := none }

/-! ## Operation sequences (claim C3) -/

/-- External ids of the ticket rows, in row order. -/
def ticketIds (s : DBState) : List String := s.tickets.map (fun t => t.ticket_id)

/-- The uniqueness invariant of the `tickets.ticket_id` column. -/
def ExternalIdsNodup (s : DBState) : Prop := (ticketIds s).Nodup

/-- One operation of the agent, with its oracles: a bulk `analyze_list`
run or a single-ticket `reanalyze`. -/
inductive AgentOp where
  | analyze (env : BoardEnv) (analyzeFn : CardPayload → AnalyzerOutcome)
      (boardId listId boardName listName : String) (analyseBoardId : Option Nat)
      (fetched : Except String (List Card))
  | reanal (g : TicketRow → Option HistoryRow → AnalyzerOutcome) (ticketId : String)

/-- Database state after one operation. -/
def runOp (s : DBState) : AgentOp → DBState
  | .analyze env f boardId listId boardName listName abid fetched =>
      (analyze_list s env f boardId listId boardName listName abid fetched).1
  | .reanal g tid => (reanalyze s g tid).1

/-- Database state after a sequence of operations. -/
def runOps : DBState → List AgentOp → DBState
  | s, [] => s
  | s, op :: ops => runOps (runOp s op) ops

/-- Concrete state and oracle for the C3 witness. -/
def c3Ticket : TicketRow :=
  { id_ticket := 1, analyse_board_id := 1, ticket_id := "W", board_name := none
    ticket_metadata := none }

def c3State : DBState :=
  { configs := [], analyses := [], analyseBoards := [], tickets := [c3Ticket]
    histories := [], nextTicketId := 2, nextAnalyseId := 1, nextBoardScopeId := 1, clock := 0 }

def c3Oracle : TicketRow → Option HistoryRow → AnalyzerOutcome :=
  fun _ _ => { criticality_level := some "MEDIUM", justification := some "j", success := true, error := none }

/-- Concrete inputs for the C2 runs: a fresh card, an analyzer that rates
it HIGH, and a board environment whose label endpoint fails. -/
def c2Card : Card :=
  { id := "c1", name := "Card 1", desc := "", due := none
    labels := Json.arr .nil, members := Json.arr .nil, url := none }

def c2State : DBState :=
  { configs := [], analyses := [], analyseBoards := [], tickets := [], histories := []
    nextTicketId := 1, nextAnalyseId := 1, nextBoardScopeId := 1, clock := 0 }

def c2Fn : CardPayload → AnalyzerOutcome :=
  fun _ => { criticality_level := some "HIGH", justification := some "needs attention"
             success := true, error := none }

def c2Env : BoardEnv :=
  { labelErr := fun _ => some "label boom", commentErr := fun _ => none, moveErr := fun _ => none }

/-- Second card and comment-failing environment for the general C2 runs. -/
def c2bCard : Card :=
  { id := "c2x", name := "Card 2", desc := "", due := none
    labels := Json.arr .nil, members := Json.arr .nil, url := none }

def c2bEnv : BoardEnv :=
  { labelErr := fun _ => none, commentErr := fun _ => some "comment boom", moveErr := fun _ => none }

def c2bPayload : CardPayload := c2Card.toPayload "Liste" "b1" "Board"

def c2b2Payload : CardPayload := c2bCard.toPayload "Liste" "b1" "Board"

/-- Analyzer result of the first C2 card. -/
def c2bResult : AnalysisResult := mkResult c2bPayload (c2Fn c2bPayload)

/-- Concrete inputs for the C5 runs: a fresh card rated OUT_OF_CONTEXT,
with persistence enabled through board scope 1 and session 2. -/
def c5Card : Card :=
  { id := "c5", name := "Card 5", desc := "", due := none
    labels := Json.arr .nil, members := Json.arr .nil, url := none }

def c5State : DBState :=
  { configs := [], analyses := [⟨2, "analyse_x", false⟩], analyseBoards := [⟨1, 2, some "trello"⟩]
    tickets := [], histories := [], nextTicketId := 1, nextAnalyseId := 3, nextBoardScopeId := 2
    clock := 0 }

def c5Fn : CardPayload → AnalyzerOutcome :=
  fun _ => { criticality_level := some "OUT_OF_CONTEXT", justification := some "hors contexte"
             success := true, error := none }

def c5Env : BoardEnv :=
  { labelErr := fun _ => none, commentErr := fun _ => none, moveErr := fun _ => none }

/-- Summary returned by `analyze_list` on an empty card list, used by the
C5 witness. -/
def c5EmptyOut : RunOutput :=
  { board_analysis :=
      { board_id := "b5", board_name := "B5", list_id := "l5", list_name := "L5"
        total_cards := 0, counts := none }
    cards_analysis := []
    saved_tickets := [] }

/-- The `last_analysis_config` snapshot held in a ticket row's metadata
(`ticket.ticket_metadata.get('last_analysis_config')`). -/
def lastCfgOf (t : TicketRow) : Option Json :=
  (t.ticket_metadata.getD (Json.obj .nil)).getField "last_analysis_config"

/-- Concrete inputs for the C1 witness: a board config and a ticket whose
metadata snapshot equals it, plus one history row, so that the single
card is served from the cache. -/
def c1Cfg : Json :=
  Json.obj (.cons "boardId" (Json.str "b1") (.cons "targetListId" (Json.str "tl") .nil))

def c1Card : Card :=
  { id := "c1", name := "Card 1", desc := "", due := none
    labels := Json.arr .nil, members := Json.arr .nil, url := none }

def c1Ticket : TicketRow :=
  { id_ticket := 1, analyse_board_id := 1, ticket_id := "c1", board_name := some "B1"
    ticket_metadata := some (Json.obj (.cons "last_analysis_config" c1Cfg .nil)) }

def c1Hist : HistoryRow :=
  { ticket_id := 1, analyse_id := 1, criticality_level := some "high"
    justification := some "cached justification", analyzed_at := 0 }

def c1State : DBState :=
  { configs := [{ id := 1, config_data := c1Cfg }], analyses := [], analyseBoards := []
    tickets := [c1Ticket], histories := [c1Hist]
    nextTicketId := 2, nextAnalyseId := 1, nextBoardScopeId := 1, clock := 0 }

def c1Fn : CardPayload → AnalyzerOutcome :=
  fun _ => { criticality_level := some "LOW", justification := none, success := true, error := none }

def c1Env : BoardEnv :=
  { labelErr := fun _ => none, commentErr := fun _ => none, moveErr := fun _ => none }

/-- The cached result served for `c1Card`. -/
def c1Hit : AnalysisResult := cacheHitResult c1Card c1Hist

/-- Output of `analyze_list` on the C1 witness run. -/
def c1Out : RunOutput :=
  { board_analysis :=
      { board_id := "b1", board_name := "B1", list_id := "l1", list_name := "L1"
        total_cards := 1, counts := some (summaryCounts [c1Hit]) }
    cards_analysis := [c1Hit]
    saved_tickets := [] }

/-! ## General helper lemmas -/

theorem assocGetD_cons_pos (v : List TrelloLabel) (rest : List (String × List TrelloLabel))
    (k : String) : assocGetD ((k, v) :: rest) k = v := by
  simp [assocGetD, List.find?_cons]

theorem assocGetD_cons_neg (kv : String × List TrelloLabel)
    (rest : List (String × List TrelloLabel)) (k : String) (h : (kv.1 == k) = false) :
    assocGetD (kv :: rest) k = assocGetD rest k := by
  simp [assocGetD, List.find?_cons, h]

theorem assocGetD_assocSet (m : List (String × List TrelloLabel)) (k : String)
    (v : List TrelloLabel) : assocGetD (assocSet m k v) k = v := by
  induction m with
  | nil => simpa [assocSet] using assocGetD_cons_pos v [] k
  | cons kv rest ih =>
    simp only [assocSet]
    by_cases h : kv.1 == k
    · simp only [if_pos h]
      exact assocGetD_cons_pos v rest k
    · have h' : (kv.1 == k) = false := by simpa using h
      rw [if_neg h, assocGetD_cons_neg kv _ k h']
      exact ih

theorem filter_neg_filter {α : Type} (p : α → Bool) (l : List α) :
    (l.filter (fun x => !(p x))).filter p = [] := by
  induction l with
  | nil => rfl
  | cons a t ih =>
    by_cases h : p a <;> simp [List.filter_cons, h, ih]

theorem strAppendEmptyR (s : String) : s ++ "" = s := String.append_empty s

/-! ## Claim C6 — label uniqueness -/

theorem get_or_create_label_name (st : TrelloBoards) (boardId level : String) :
    (get_or_create_criticality_label st boardId level).1.name =
      "Priority - " ++ pyCapitalize level := by
  unfold get_or_create_criticality_label
  cases hf : (assocGetD st.boardLabels boardId).find?
      (fun l => l.name == ("Priority - " ++ pyCapitalize level)) with
  | none => simp [hf]
  | some l =>
    have := List.find?_some hf
    simp only [beq_iff_eq] at this
    simp [hf, this]

theorem get_or_create_label_cardLabels (st : TrelloBoards) (boardId level : String) :
    (get_or_create_criticality_label st boardId level).2.cardLabels = st.cardLabels := by
  unfold get_or_create_criticality_label
  cases hf : (assocGetD st.boardLabels boardId).find?
      (fun l => l.name == ("Priority - " ++ pyCapitalize level)) with
  | none => simp [hf]
  | some l => simp [hf]

theorem get_or_create_label_created (st : TrelloBoards) (boardId level : String)
    (hf : (assocGetD st.boardLabels boardId).find?
        (fun l => l.name == ("Priority - " ++ pyCapitalize level)) = none) :
    assocGetD (get_or_create_criticality_label st boardId level).2.boardLabels boardId
      = assocGetD st.boardLabels boardId ++ [(get_or_create_criticality_label st boardId level).1]
    ∧ (get_or_create_criticality_label st boardId level).1.color = criticalityColor level := by
  unfold get_or_create_criticality_label
  simp [hf, assocGetD_assocSet]

theorem deletePriority_cardLabels (st : TrelloBoards) (cardId : String) :
    assocGetD (deletePriorityLabels st cardId).cardLabels cardId
      = (assocGetD st.cardLabels cardId).filter
          (fun l => !(priorityLabelNames.contains l.name)) := by
  simp [deletePriorityLabels, assocGetD_assocSet]

/-- Claim C6: after `addLabel(c, boardId, L)` with `L` in HIGH/MEDIUM/LOW,
card `c` carries exactly one label whose name is a priority-label name,
namely `Priority - L`; the tool deletes all priority labels first and, if
a board label named `Priority - {Level}` was absent, creates it with the
color mapping red/orange/green. -/
theorem addLabel_exactly_one_priority_label (st : TrelloBoards) (cardId boardId level : String)
    (hlvl : level = "HIGH" ∨ level = "MEDIUM" ∨ level = "LOW") :
    (((assocGetD (apply_criticality_label_with_creation st cardId boardId level).cardLabels cardId).filter
        (fun l => priorityLabelNames.contains l.name)).map (fun l => l.name)
      = ["Priority - " ++ pyCapitalize level])
    ∧ ((assocGetD st.boardLabels boardId).find?
          (fun l => l.name == ("Priority - " ++ pyCapitalize level)) = none →
        ∃ lb, lb ∈ assocGetD (apply_criticality_label_with_creation st cardId boardId level).boardLabels boardId
          ∧ lb.name = "Priority - " ++ pyCapitalize level ∧ lb.color = criticalityColor level)
    ∧ criticalityColor "HIGH" = "red" ∧ criticalityColor "MEDIUM" = "orange"
    ∧ criticalityColor "LOW" = "green" := by
  have hmem : priorityLabelNames.contains ("Priority - " ++ pyCapitalize level) = true := by
    rcases hlvl with h | h | h <;> subst h <;> decide
  cases hgoc : get_or_create_criticality_label (deletePriorityLabels st cardId) boardId level with
  | mk lbl st2 =>
    have hname : lbl.name = "Priority - " ++ pyCapitalize level := by
      have h := get_or_create_label_name (deletePriorityLabels st cardId) boardId level
      rw [hgoc] at h
      exact h
    have hcls : st2.cardLabels = (deletePriorityLabels st cardId).cardLabels := by
      have h := get_or_create_label_cardLabels (deletePriorityLabels st cardId) boardId level
      rw [hgoc] at h
      exact h
    have hcard : assocGetD (apply_criticality_label_with_creation st cardId boardId level).cardLabels cardId
        = (assocGetD st.cardLabels cardId).filter
            (fun l => !(priorityLabelNames.contains l.name)) ++ [lbl] := by
      simp only [apply_criticality_label_with_creation, hgoc]
      rw [assocGetD_assocSet, hcls, deletePriority_cardLabels]
    have hboards : (apply_criticality_label_with_creation st cardId boardId level).boardLabels
        = st2.boardLabels := by
      simp only [apply_criticality_label_with_creation, hgoc]
    refine ⟨?_, ?_, by decide, by decide, by decide⟩
    · rw [hcard, List.filter_append, filter_neg_filter]
      have hmem' : ("Priority - " ++ pyCapitalize level) ∈ priorityLabelNames := by
        simpa using hmem
      simp [List.filter_cons, hname, hmem']
    · intro hf
      have hf1 : (assocGetD (deletePriorityLabels st cardId).boardLabels boardId).find?
          (fun l => l.name == ("Priority - " ++ pyCapitalize level)) = none := hf
      have hcr := get_or_create_label_created (deletePriorityLabels st cardId) boardId level hf1
      rw [hgoc] at hcr
      refine ⟨lbl, ?_, hname, hcr.2⟩
      rw [hboards, hcr.1]
      simp

/-- Witness for C6 at the concrete board state `c6Boards`. -/
theorem addLabel_exactly_one_priority_label_witness :
    (((assocGetD (apply_criticality_label_with_creation c6Boards "c1" "b1" "HIGH").cardLabels "c1").filter
        (fun l => priorityLabelNames.contains l.name)).map (fun l => l.name)
      = ["Priority - " ++ pyCapitalize "HIGH"])
    ∧ ((assocGetD c6Boards.boardLabels "b1").find?
          (fun l => l.name == ("Priority - " ++ pyCapitalize "HIGH")) = none →
        ∃ lb, lb ∈ assocGetD (apply_criticality_label_with_creation c6Boards "c1" "b1" "HIGH").boardLabels "b1"
          ∧ lb.name = "Priority - " ++ pyCapitalize "HIGH" ∧ lb.color = criticalityColor "HIGH")
    ∧ criticalityColor "HIGH" = "red" ∧ criticalityColor "MEDIUM" = "orange"
    ∧ criticalityColor "LOW" = "green" :=
  addLabel_exactly_one_priority_label c6Boards "c1" "b1" "HIGH" (Or.inl rfl)

/-! ## Claim C7 — response-parsing order -/

/-- Counterexample to C7 as stated: in the response "low high" the first
level by position is LOW, but the code checks HIGH before LOW and emits
HIGH. -/
theorem parse_criticality_positional_counterexample :
    parse_criticality_response "low high" = "HIGH"
    ∧ firstLevelByPositionSpec (pyUpper (pyStrip "low high")) = some "LOW"
    ∧ ("HIGH" : String) ≠ "LOW" := by
  refine ⟨by decide, by decide, by decide⟩

/-- Claim C7 as amended: `OUT_OF_CONTEXT` anywhere in the stripped,
upper-cased response wins; otherwise the first of HIGH, MEDIUM, LOW *in
that fixed priority order* that occurs anywhere in the response wins
(regardless of position), defaulting to LOW when none occurs. -/
theorem parse_criticality_priority_order (resp : String) :
    parse_criticality_response resp =
      ((["OUT_OF_CONTEXT", "HIGH", "MEDIUM", "LOW"].find?
          (fun kw => containsSub (pyUpper (pyStrip resp)) kw)).getD "LOW") := by
  simp only [parse_criticality_response, List.find?]
  by_cases h0 : containsSub (pyUpper (pyStrip resp)) "OUT_OF_CONTEXT" <;>
    by_cases h1 : containsSub (pyUpper (pyStrip resp)) "HIGH" <;>
      by_cases h2 : containsSub (pyUpper (pyStrip resp)) "MEDIUM" <;>
        by_cases h3 : containsSub (pyUpper (pyStrip resp)) "LOW" <;>
          simp [h0, h1, h2, h3]

/-! ## Claim C10 — comment marker -/

/-- Counterexample to C10 as stated: `add_comment_to_card` posts the
comment text unchanged, so no nonempty fixed marker string is prepended
to every comment. -/
theorem addComment_marker_counterexample :
    (add_comment_to_card "key0" "card1" "tok" "Security review needed").text
      = "Security review needed"
    ∧ ¬ ∃ m : String, m ≠ ""
        ∧ ∀ c : String, (add_comment_to_card "key0" "card1" "tok" c).text = m ++ c := by
  refine ⟨rfl, ?_⟩
  rintro ⟨m, hm, hall⟩
  have h := (hall "").symm
  rw [strAppendEmptyR] at h
  exact hm h

/-- Claim C10 as amended: `addComment` posts the comment text unchanged,
for every card and every comment; no marker is prepended. -/
theorem addComment_posts_text_unchanged (apiKey cardId token comment : String) :
    (add_comment_to_card apiKey cardId token comment).text = comment := rfl

/-! ## Claim C9 — document ingestion -/

/-- Counterexample to C9 as stated: after uploading "hello" as "a.txt", a
second upload of the identical bytes under the same filename returns a
409 conflict object, not the existing document id; and uploading the
identical bytes under a different filename creates additional chunks with
a fresh document id.  No MD5 content hash is involved in either path. -/
theorem upload_idempotence_counterexample :
    c9Store1.chunks.length = 1
    ∧ (upload_document c9Split c9Store1 "a.txt" "hello").2 = UploadRet.conflict
    ∧ (upload_document c9Split c9Store1 "a.txt" "hello").1.chunks.length = 1
    ∧ (upload_document c9Split c9Store1 "b.txt" "hello").2 = UploadRet.okDoc "doc-1" "b.txt" 5
    ∧ (upload_document c9Split c9Store1 "b.txt" "hello").1.chunks.length = 2 := by
  refine ⟨rfl, rfl, rfl, rfl, rfl⟩

/-- Claim C9 as amended: duplicate detection keys on the stored filename,
not on a content hash.  Re-uploading under a filename that already has
chunks creates nothing and yields a 409 conflict (whatever the bytes);
uploading under a fresh filename ingests the content under a fresh
document id, regardless of whether identical bytes were already stored. -/
theorem upload_dedup_by_filename (split : String → List String) (st : DocStore)
    (filename content : String) (hc : content.isEmpty = false) :
    ((∃ c ∈ st.chunks, c.filename = filename) →
        upload_document split st filename content = (st, UploadRet.conflict))
    ∧ ((∀ c ∈ st.chunks, c.filename ≠ filename) →
        (upload_document split st filename content).2
            = UploadRet.okDoc ("doc-" ++ toString st.nextDocId) filename content.length
          ∧ (upload_document split st filename content).1.chunks.length
              = st.chunks.length + (split content).length
          ∧ (upload_document split st filename content).1.nextDocId = st.nextDocId + 1) := by
  constructor
  · rintro ⟨c, hcmem, hcf⟩
    have hmem : c ∈ st.chunks.filter (fun d => d.filename == filename) := by
      refine List.mem_filter.mpr ⟨hcmem, by simp [hcf]⟩
    have hnn : st.chunks.filter (fun d => d.filename == filename) ≠ [] :=
      List.ne_nil_of_mem hmem
    have hne : (st.chunks.filter (fun d => d.filename == filename)).isEmpty = false := by
      cases h' : (st.chunks.filter (fun d => d.filename == filename)).isEmpty with
      | false => rfl
      | true => exact absurd (List.isEmpty_iff.mp h') hnn
    have hdup : check_duplicate_file st filename (some content) = true := by
      simp only [check_duplicate_file, hne]
      simp [ite_self]
    simp [upload_document, hc, hdup]
  · intro hall
    have hfe : st.chunks.filter (fun d => d.filename == filename) = [] := by
      refine List.filter_eq_nil_iff.mpr ?_
      intro c hcmem
      simpa using hall c hcmem
    have hdup : check_duplicate_file st filename (some content) = false := by
      simp [check_duplicate_file, hfe]
    refine ⟨?_, ?_, ?_⟩ <;>
      simp [upload_document, hc, hdup, vectorize_and_store]

/-- Witness for the amended C9 at the concrete store `c9Store1`. -/
theorem upload_dedup_by_filename_witness :
    upload_document c9Split c9Store1 "a.txt" "hello" = (c9Store1, UploadRet.conflict)
    ∧ (upload_document c9Split c9Store1 "b.txt" "hello").2
        = UploadRet.okDoc ("doc-" ++ toString c9Store1.nextDocId) "b.txt" ("hello" : String).length :=
  ⟨(upload_dedup_by_filename c9Split c9Store1 "a.txt" "hello" (by decide)).1 (by decide),
   ((upload_dedup_by_filename c9Split c9Store1 "b.txt" "hello" (by decide)).2 (by decide)).1⟩

/-! ## Claim C8 — lowercase storage of criticality levels -/

/-- Claim C8 fails on the code: `ReanalysisService.reanalyze` stores the
analyzer level verbatim ("HIGH"), which is not lowercase and is not among
the values of the declared `Enum('low','medium','high')` column, while
the bulk path `TicketService.save_history` lower-cases the same level. -/
theorem reanalysis_history_level_not_lowercased :
    ((reanalyze c8State c8Oracle "X").1.histories.map (fun h => h.criticality_level)) = [some "HIGH"]
    ∧ pyLower "HIGH" = "high"
    ∧ (["low", "medium", "high"].contains "HIGH") = false
    ∧ ((save_history c8State c8Ticket 5 c8Result).histories.map (fun h => h.criticality_level)) = [some "high"] := by
  refine ⟨rfl, by decide, by decide, rfl⟩

/-! ## Claim C4 — reanalysis lineage -/

theorem updateFirstTicket_map {β : Type} (f : TicketRow → β) (p : TicketRow → Bool)
    (g : TicketRow → TicketRow) (l : List TicketRow) (h : ∀ t, f (g t) = f t) :
    (updateFirstTicket p g l).map f = l.map f := by
  induction l with
  | nil => rfl
  | cons t ts ih =>
    by_cases hp : p t
    · simp [updateFirstTicket, hp, h t]
    · simp [updateFirstTicket, hp, ih]

/-- Claim C4: on an existing ticket, `reanalyze` creates exactly one new
session with `reanalyse=true`, one new board scope for it, and one new
history row referencing the existing ticket internal id and the new
session id, while the ticket rows keep their identities (no insertion);
on a missing external id it returns the error object and leaves the state
untouched. -/
theorem reanalyze_lineage (s : DBState) (g : TicketRow → Option HistoryRow → AnalyzerOutcome)
    (tid : String) :
    (∀ t, s.getTicketByTicketId tid = some t →
      (reanalyze s g tid).2 = ReanalyzeRet.ok s.nextAnalyseId ("REANALYSE-" ++ timeStr s.clock)
      ∧ (reanalyze s g tid).1.analyses
          = s.analyses ++ [⟨s.nextAnalyseId, "REANALYSE-" ++ timeStr s.clock, true⟩]
      ∧ (reanalyze s g tid).1.analyseBoards
          = s.analyseBoards ++ [⟨s.nextBoardScopeId, s.nextAnalyseId, some "trello"⟩]
      ∧ (reanalyze s g tid).1.histories
          = s.histories ++ [⟨t.id_ticket, s.nextAnalyseId,
              (g t (s.latestHistoryFor t.id_ticket)).criticality_level,
              (g t (s.latestHistoryFor t.id_ticket)).justification, s.clock⟩]
      ∧ (reanalyze s g tid).1.tickets.map (fun x => (x.id_ticket, x.ticket_id))
          = s.tickets.map (fun x => (x.id_ticket, x.ticket_id)))
    ∧ (s.getTicketByTicketId tid = none →
        reanalyze s g tid = (s, ReanalyzeRet.err ("Ticket " ++ tid ++ " introuvable"))) := by
  constructor
  · intro t ht
    refine ⟨?_, ?_, ?_, ?_, ?_⟩
    · simp [reanalyze, ht]
    · simp [reanalyze, ht]
    · simp [reanalyze, ht]
    · simp [reanalyze, ht]
    · simp only [reanalyze, ht]
      exact updateFirstTicket_map _ _ _ _ (fun x => rfl)
  · intro ht
    simp [reanalyze, ht]

/-- Witness for C4 at the concrete state `c4State`: the existing ticket
case and the missing ticket case. -/
theorem reanalyze_lineage_witness :
    (reanalyze c4State c4Oracle "card-9").2
        = ReanalyzeRet.ok c4State.nextAnalyseId ("REANALYSE-" ++ timeStr c4State.clock)
    ∧ (reanalyze c4State c4Oracle "card-9").1.histories
        = c4State.histories ++ [⟨c4Ticket.id_ticket, c4State.nextAnalyseId,
            (c4Oracle c4Ticket (c4State.latestHistoryFor c4Ticket.id_ticket)).criticality_level,
            (c4Oracle c4Ticket (c4State.latestHistoryFor c4Ticket.id_ticket)).justification, c4State.clock⟩]
    ∧ (reanalyze c4State c4Oracle "card-9").1.tickets.map (fun x => (x.id_ticket, x.ticket_id))
        = c4State.tickets.map (fun x => (x.id_ticket, x.ticket_id))
    ∧ reanalyze c4State c4Oracle "missing" = (c4State, ReanalyzeRet.err ("Ticket " ++ "missing" ++ " introuvable")) :=
  ⟨((reanalyze_lineage c4State c4Oracle "card-9").1 c4Ticket rfl).1,
   ((reanalyze_lineage c4State c4Oracle "card-9").1 c4Ticket rfl).2.2.2.1,
   ((reanalyze_lineage c4State c4Oracle "card-9").1 c4Ticket rfl).2.2.2.2,
   (reanalyze_lineage c4State c4Oracle "missing").2 rfl⟩

/-! ## Claim C3 — external-id uniqueness -/

theorem dropAnalysisResult_ticket_id (t : TicketRow) :
    (dropAnalysisResult t).ticket_id = t.ticket_id := by
  by_cases h : metaTruthy t.ticket_metadata <;> simp [dropAnalysisResult, h]

theorem ticketIds_invalidate (s : DBState) (tid : String) :
    ticketIds (invalidate_analysis_cache s tid) = ticketIds s := by
  simp only [invalidate_analysis_cache, ticketIds]
  exact updateFirstTicket_map _ _ _ _ dropAnalysisResult_ticket_id

theorem ticketIds_save_history (s : DBState) (t : TicketRow) (a : Nat) (r : AnalysisResult) :
    ticketIds (save_history s t a r) = ticketIds s := rfl

theorem ticketIds_update_ticket_list (s : DBState) (t : TicketRow) (nl : String)
    (nn : Option String) : ticketIds (update_ticket_list s t nl nn) = ticketIds s := by
  simp only [update_ticket_list, ticketIds]
  exact updateFirstTicket_map _ _ _ _ (fun x => rfl)

theorem ticketIds_snapshotConfig (s : DBState) (boardId : String) (t : TicketRow) :
    ticketIds (snapshotConfig s boardId t).1 = ticketIds s := by
  cases hcfg : s.getConfigByBoard boardId with
  | none => simp [snapshotConfig, hcfg]
  | some cfg =>
    by_cases h : cfg.config_data.truthy
    · simp only [snapshotConfig, hcfg, h, if_true, ticketIds]
      exact updateFirstTicket_map _ _ _ _ (fun x => rfl)
    · simp [snapshotConfig, hcfg, h]

theorem ticketIds_persistHistory (s : DBState) (abid : Nat) (cid : String) (p : CardPayload)
    (r : AnalysisResult) (t : TicketRow) :
    ticketIds (persistHistory s abid cid p r t).1 = ticketIds s := by
  cases hab : s.analyseBoards.find? (fun b => b.id == abid) with
  | none => simp [persistHistory, hab]
  | some ab =>
    by_cases hne : ab.analyse_id != 0
    · by_cases hmv : (r.card_moved && optStrTruthy r.target_list_id) = true
      · simp [persistHistory, hab, hne, hmv, ticketIds_update_ticket_list, ticketIds_save_history]
      · simp [persistHistory, hab, hne, hmv, ticketIds_save_history]
    · simp [persistHistory, hab, hne]

theorem ensure_ticket_found (s : DBState) (abid : Nat) (card : CardPayload) (bn : String)
    (ln : Option String) (t : TicketRow) (h : s.getTicketByTicketId card.id = some t) :
    ensure_ticket s abid card bn ln = (t, s) := by
  simp [ensure_ticket, h]

theorem getTicket_none_notin (s : DBState) (tid : String)
    (h : s.getTicketByTicketId tid = none) : tid ∉ ticketIds s := by
  intro hmem
  rcases List.mem_map.mp hmem with ⟨t, htmem, htid⟩
  have hall := List.find?_eq_none.mp h t htmem
  simp [htid] at hall

theorem ensure_ticket_ids (s : DBState) (abid : Nat) (card : CardPayload) (bn : String)
    (ln : Option String) :
    ticketIds (ensure_ticket s abid card bn ln).2 = ticketIds s
    ∨ (s.getTicketByTicketId card.id = none
        ∧ ticketIds (ensure_ticket s abid card bn ln).2 = ticketIds s ++ [card.id]) := by
  cases hf : s.getTicketByTicketId card.id with
  | some t =>
    left
    simp [ensure_ticket, hf]
  | none =>
    right
    refine ⟨rfl, ?_⟩
    simp [ensure_ticket, hf, ticketIds]

theorem nodup_append_id {l : List String} {a : String} (h : l.Nodup) (ha : a ∉ l) :
    (l ++ [a]).Nodup := by
  refine List.Nodup.append h (List.nodup_singleton a) ?_
  intro x hx hx'
  rw [List.mem_singleton] at hx'
  subst hx'
  exact ha hx

theorem persistCard_ticketIds (s : DBState) (boardId listId listName boardName : String)
    (abid : Option Nat) (cid : String) (p : CardPayload) (r : AnalysisResult) :
    ticketIds (persistCard s boardId listId listName boardName abid cid p r).1 = ticketIds s
    ∨ (s.getTicketByTicketId p.id = none
        ∧ ticketIds (persistCard s boardId listId listName boardName abid cid p r).1
            = ticketIds s ++ [p.id]) := by
  by_cases hcond : (optNatTruthy abid && r.success) = true
  · have heq : persistCard s boardId listId listName boardName abid cid p r
        = persistHistory
            (snapshotConfig
              (ensure_ticket s (abid.getD 0)
                { p with list_id := if r.card_moved then r.target_list_id else some listId }
                boardName (if r.card_moved then r.target_list_name else some listName)).2
              boardId
              (ensure_ticket s (abid.getD 0)
                { p with list_id := if r.card_moved then r.target_list_id else some listId }
                boardName (if r.card_moved then r.target_list_name else some listName)).1).1
            (abid.getD 0) cid p r
            (snapshotConfig
              (ensure_ticket s (abid.getD 0)
                { p with list_id := if r.card_moved then r.target_list_id else some listId }
                boardName (if r.card_moved then r.target_list_name else some listName)).2
              boardId
              (ensure_ticket s (abid.getD 0)
                { p with list_id := if r.card_moved then r.target_list_id else some listId }
                boardName (if r.card_moved then r.target_list_name else some listName)).1).2 := by
      unfold persistCard
      rw [if_pos hcond]
    rw [heq, ticketIds_persistHistory, ticketIds_snapshotConfig]
    simpa using ensure_ticket_ids s (abid.getD 0)
      { p with list_id := if r.card_moved then r.target_list_id else some listId }
      boardName (if r.card_moved then r.target_list_name else some listName)
  · left
    simp [persistCard, hcond]

theorem persistCard_nodup (s : DBState) (boardId listId listName boardName : String)
    (abid : Option Nat) (cid : String) (p : CardPayload) (r : AnalysisResult)
    (h : ExternalIdsNodup s) :
    ExternalIdsNodup (persistCard s boardId listId listName boardName abid cid p r).1 := by
  rcases persistCard_ticketIds s boardId listId listName boardName abid cid p r with heq | ⟨hf, heq⟩
  · rw [ExternalIdsNodup, heq]
    exact h
  · rw [ExternalIdsNodup, heq]
    exact nodup_append_id h (getTicket_none_notin s p.id hf)

theorem processCard_state (env : BoardEnv) (analyzeFn : CardPayload → AnalyzerOutcome)
    (boardId listId boardName listName : String) (abid : Option Nat)
    (batched : List (String × AnalysisResult)) (s : DBState) (cid : String) (p : CardPayload) :
    (processCard env analyzeFn boardId listId boardName listName abid batched s cid p).1 = s
    ∨ ∃ r, (processCard env analyzeFn boardId listId boardName listName abid batched s cid p).1
        = (persistCard s boardId listId listName boardName abid cid p r).1 := by
  unfold processCard
  by_cases hact : actionableResult (lookupResult analyzeFn batched cid p) = true
  · rw [if_pos hact]
    cases hda : doActions env s boardId cid (lookupResult analyzeFn batched cid p) with
    | mk acts res =>
      cases res with
      | error e => left; rfl
      | ok r => right; exact ⟨r, rfl⟩
  · rw [if_neg hact]
    right
    exact ⟨lookupResult analyzeFn batched cid p, rfl⟩

theorem processCard_nodup (env : BoardEnv) (analyzeFn : CardPayload → AnalyzerOutcome)
    (boardId listId boardName listName : String) (abid : Option Nat)
    (batched : List (String × AnalysisResult)) (s : DBState) (cid : String) (p : CardPayload)
    (h : ExternalIdsNodup s) :
    ExternalIdsNodup (processCard env analyzeFn boardId listId boardName listName abid batched s cid p).1 := by
  rcases processCard_state env analyzeFn boardId listId boardName listName abid batched s cid p with h0 | ⟨r, h0⟩
  · rw [h0]; exact h
  · rw [h0]; exact persistCard_nodup s boardId listId listName boardName abid cid p r h

theorem actionLoop_nodup (env : BoardEnv) (analyzeFn : CardPayload → AnalyzerOutcome)
    (boardId listId boardName listName : String) (abid : Option Nat)
    (batched : List (String × AnalysisResult)) :
    ∀ (l : List (String × CardPayload)) (s : DBState), ExternalIdsNodup s →
      ExternalIdsNodup (actionLoop env analyzeFn boardId listId boardName listName abid batched s l).1 := by
  intro l
  induction l with
  | nil => intro s h; exact h
  | cons hd tl ih =>
    intro s h
    cases hd with
    | mk cid p =>
      unfold actionLoop
      cases hpc : processCard env analyzeFn boardId listId boardName listName abid batched s cid p with
      | mk s1 rest1 =>
        have h1 : ExternalIdsNodup s1 := by
          have hx := processCard_nodup env analyzeFn boardId listId boardName listName abid batched s cid p h
          rw [hpc] at hx
          exact hx
        cases rest1 with
        | mk acts res =>
          cases res with
          | error e => exact h1
          | ok pr =>
            cases pr with
            | mk r sv =>
              have h2 := ih s1 h1
              dsimp only
              cases hrec : actionLoop env analyzeFn boardId listId boardName listName abid batched s1 tl with
              | mk s2 rest2 =>
                rw [hrec] at h2
                cases rest2 with
                | mk acts2 res2 =>
                  cases res2 with
                  | error e => exact h2
                  | ok pr2 => cases pr2 with | mk rs svs => exact h2

theorem classifyStepState_ids (s : DBState) (boardId : String) (card : Card) :
    ticketIds (classifyStepState s boardId card) = ticketIds s := by
  cases hf : s.getTicketByTicketId card.id with
  | none => simp [classifyStepState, hf]
  | some t =>
    by_cases hm : metaTruthy t.ticket_metadata
    · by_cases hv : is_cache_valid_for_config s t boardId
      · simp [classifyStepState, hf, hm, hv]
      · simp [classifyStepState, hf, hm, hv, ticketIds_invalidate]
    · simp [classifyStepState, hf, hm]

theorem classifyCards_ticketIds (abid : Option Nat) (boardId listId boardName listName : String) :
    ∀ (cards : List Card) (s : DBState),
      ticketIds (classifyCards abid boardId listId boardName listName s cards).1 = ticketIds s := by
  intro cards
  induction cards with
  | nil => intro s; rfl
  | cons c rest ih =>
    intro s
    cases hhit : cacheHitInfo s abid boardId c with
    | some rsv =>
      simp only [classifyCards, hhit]
      exact ih s
    | none =>
      simp only [classifyCards, hhit]
      rw [ih (classifyStepState s boardId c), classifyStepState_ids]

theorem analyze_list_nodup (s : DBState) (env : BoardEnv)
    (analyzeFn : CardPayload → AnalyzerOutcome)
    (boardId listId boardName listName : String) (abid : Option Nat)
    (fetched : Except String (List Card)) (h : ExternalIdsNodup s) :
    ExternalIdsNodup (analyze_list s env analyzeFn boardId listId boardName listName abid fetched).1 := by
  cases fetched with
  | error msg => simpa [analyze_list] using h
  | ok cards =>
    by_cases hemp : cards.isEmpty = true
    · simpa [analyze_list, hemp] using h
    · have hemp' : cards.isEmpty = false := by simpa using hemp
      simp only [analyze_list, hemp', Bool.false_eq_true, if_false]
      refine actionLoop_nodup env analyzeFn boardId listId boardName listName abid _ _ _ ?_
      rw [ExternalIdsNodup, classifyCards_ticketIds]
      exact h

theorem reanalyze_ids (s : DBState) (g : TicketRow → Option HistoryRow → AnalyzerOutcome)
    (tid : String) : ticketIds (reanalyze s g tid).1 = ticketIds s := by
  cases hf : s.getTicketByTicketId tid with
  | none => simp [reanalyze, hf]
  | some t =>
    simp only [reanalyze, hf, ticketIds]
    exact updateFirstTicket_map _ _ _ _ (fun x => rfl)

theorem runOps_nodup (ops : List AgentOp) :
    ∀ s : DBState, ExternalIdsNodup s → ExternalIdsNodup (runOps s ops) := by
  induction ops with
  | nil => intro s h; exact h
  | cons op rest ih =>
    intro s h
    refine ih (runOp s op) ?_
    cases op with
    | analyze env f b l bn ln abid fetched =>
      exact analyze_list_nodup s env f b l bn ln abid fetched h
    | reanal g tid =>
      rw [ExternalIdsNodup, runOp, reanalyze_ids]
      exact h

/-- Claim C3: starting from any database satisfying the uniqueness of
external ids, after any sequence of `analyze_list` and `reanalyze`
operations any two ticket rows sharing an external id are the same row;
and `ensure_ticket` on a card whose external id already has a row returns
that row unchanged and inserts nothing. -/
theorem ticket_externalId_unique_under_ops (s : DBState) (ops : List AgentOp)
    (h : ExternalIdsNodup s) :
    (∀ t1 ∈ (runOps s ops).tickets, ∀ t2 ∈ (runOps s ops).tickets,
        t1.ticket_id = t2.ticket_id → t1 = t2)
    ∧ (∀ (abid : Nat) (card : CardPayload) (bn : String) (ln : Option String) (t : TicketRow),
        s.getTicketByTicketId card.id = some t →
        ensure_ticket s abid card bn ln = (t, s)) := by
  constructor
  · have hns := runOps_nodup ops s h
    intro t1 h1 t2 h2 heq
    exact List.inj_on_of_nodup_map hns h1 h2 heq
  · intro abid card bn ln t ht
    exact ensure_ticket_found s abid card bn ln t ht

/-- Witness for C3 at the concrete state `c3State` with one reanalysis
operation. -/
theorem ticket_externalId_unique_under_ops_witness :
    (∀ t1 ∈ (runOps c3State [AgentOp.reanal c3Oracle "W"]).tickets,
      ∀ t2 ∈ (runOps c3State [AgentOp.reanal c3Oracle "W"]).tickets,
        t1.ticket_id = t2.ticket_id → t1 = t2)
    ∧ (∀ (abid : Nat) (card : CardPayload) (bn : String) (ln : Option String) (t : TicketRow),
        c3State.getTicketByTicketId card.id = some t →
        ensure_ticket c3State abid card bn ln = (t, c3State)) :=
  ticket_externalId_unique_under_ops c3State [AgentOp.reanal c3Oracle "W"]
    (by simp only [ExternalIdsNodup, ticketIds]; decide)

/-! ## Claim C2 — board-action failures -/

/-- Counterexample to C2 as stated: with one fresh card rated HIGH and a
failing label endpoint, `analyze_list` raises (the exception propagates),
no error field is recorded on any per-card result, and no further action
is attempted. -/
theorem analyzeList_action_failure_counterexample :
    (analyze_list c2State c2Env c2Fn "b1" "l1" "Board" "Liste" none (.ok [c2Card])).2.2
        = RunRet.raised "label boom"
    ∧ (analyze_list c2State c2Env c2Fn "b1" "l1" "Board" "Liste" none (.ok [c2Card])).2.1 = [] := by
  exact ⟨rfl, rfl⟩

theorem doActions_label_fail (env : BoardEnv) (s : DBState) (boardId cid : String)
    (r : AnalysisResult) (e : String) (h : env.labelErr cid = some e) :
    doActions env s boardId cid r = ([], Except.error e) := by
  simp [doActions, h]

theorem doActions_comment_fail (env : BoardEnv) (s : DBState) (boardId cid : String)
    (r : AnalysisResult) (e : String) (hl : env.labelErr cid = none)
    (hj : optStrTruthy r.justification = true) (hc : env.commentErr cid = some e) :
    doActions env s boardId cid r
      = ([BoardAction.label cid (r.criticality_level.getD "")], Except.error e) := by
  simp [doActions, doCommentMove, hl, hj, hc]

theorem doActions_move_fail (env : BoardEnv) (s : DBState) (boardId cid : String)
    (r : AnalysisResult) (e : String) (cfg : ConfigRow) (tv : Json)
    (hl : env.labelErr cid = none)
    (hcm : optStrTruthy r.justification = true → env.commentErr cid = none)
    (hcfg : s.getConfigByBoard boardId = some cfg)
    (htr : cfg.config_data.truthy = true)
    (htl : cfg.config_data.getField "targetListId" = some tv)
    (htv : tv.truthy = true)
    (hm : env.moveErr cid = some e) :
    doActions env s boardId cid r
      = (BoardAction.label cid (r.criticality_level.getD "")
          :: (if optStrTruthy r.justification then
                [BoardAction.comment cid (r.justification.getD "")] else []),
         Except.error e) := by
  by_cases hj : optStrTruthy r.justification = true
  · simp [doActions, doCommentMove, doMove, hl, hj, hcm hj, hcfg, htr, htl, htv, hm]
  · have hj2 : optStrTruthy r.justification = false := by simpa using hj
    simp [doActions, doCommentMove, doMove, hl, hj2, hcfg, htr, htl, htv, hm]

theorem processCard_error_of_doActions (env : BoardEnv) (f : CardPayload → AnalyzerOutcome)
    (boardId listId boardName listName : String) (abid : Option Nat)
    (batched : List (String × AnalysisResult)) (s : DBState) (cid : String) (p : CardPayload)
    (acts : List BoardAction) (e : String)
    (hact : actionableResult (lookupResult f batched cid p) = true)
    (hda : doActions env s boardId cid (lookupResult f batched cid p) = (acts, Except.error e)) :
    processCard env f boardId listId boardName listName abid batched s cid p
      = (s, acts, Except.error e) := by
  unfold processCard
  simp [hact, hda]

theorem actionLoop_error_aborts (env : BoardEnv) (f : CardPayload → AnalyzerOutcome)
    (boardId listId boardName listName : String) (abid : Option Nat)
    (batched : List (String × AnalysisResult)) :
    ∀ (pm1 : List (String × CardPayload)) (s s1 : DBState) (acts1 : List BoardAction)
      (rs : List AnalysisResult) (svs : List SavedTicket) (cid : String) (p : CardPayload)
      (pm2 : List (String × CardPayload)) (sE : DBState) (actsE : List BoardAction) (e : String),
      actionLoop env f boardId listId boardName listName abid batched s pm1
        = (s1, acts1, Except.ok (rs, svs)) →
      processCard env f boardId listId boardName listName abid batched s1 cid p
        = (sE, actsE, Except.error e) →
      actionLoop env f boardId listId boardName listName abid batched s (pm1 ++ (cid, p) :: pm2)
        = (sE, acts1 ++ actsE, Except.error e) := by
  intro pm1
  induction pm1 with
  | nil =>
    intro s s1 acts1 rs svs cid p pm2 sE actsE e h1 h2
    simp only [actionLoop, Prod.mk.injEq, Except.ok.injEq] at h1
    obtain ⟨hs, hacts, _⟩ := h1
    rw [← hs] at h2
    rw [← hacts]
    simp only [List.nil_append]
    unfold actionLoop
    rw [h2]

  | cons hd tl ih =>
    intro s s1 acts1 rs svs cid p pm2 sE actsE e h1 h2
    cases hd with
    | mk cid0 p0 =>
      unfold actionLoop at h1
      rw [List.cons_append]
      unfold actionLoop
      cases hpc : processCard env f boardId listId boardName listName abid batched s cid0 p0 with
      | mk sA restA =>
        rw [hpc] at h1
        cases restA with
        | mk actsA resA =>
          cases resA with
          | error e0 => exact absurd h1 (by simp)
          | ok prA =>
            cases prA with
            | mk rA svA =>
              dsimp only at h1 ⊢
              cases hrec : actionLoop env f boardId listId boardName listName abid batched sA tl with
              | mk sB restB =>
                rw [hrec] at h1
                cases restB with
                | mk actsB resB =>
                  cases resB with
                  | error e0 => exact absurd h1 (by simp)
                  | ok prB =>
                    cases prB with
                    | mk rsB svsB =>
                      simp only [Prod.mk.injEq, Except.ok.injEq] at h1
                      obtain ⟨hsB, hacts, hrs, hsvs⟩ := h1
                      rw [← hsB] at h2
                      have hstep := ih sA sB actsB rsB svsB cid p pm2 sE actsE e hrec h2
                      rw [hstep]
                      dsimp only
                      rw [← hacts, List.append_assoc]

theorem analyzeList_raised_of_actionLoop_error (s : DBState) (env : BoardEnv)
    (f : CardPayload → AnalyzerOutcome) (boardId listId boardName listName : String)
    (abid : Option Nat) (cards : List Card) (sE : DBState) (acts : List BoardAction)
    (e : String) (hemp : cards.isEmpty = false)
    (hal : actionLoop env f boardId listId boardName listName abid
        ((classifyCards abid boardId listId boardName listName s cards).2.2.2.foldl
          (fun m p => insertReplace m p.id (mkResult p (f p))) [])
        (classifyCards abid boardId listId boardName listName s cards).1
        ((classifyCards abid boardId listId boardName listName s cards).2.2.2.foldl
          (fun m p => insertReplace m p.id p) [])
      = (sE, acts, Except.error e)) :
    analyze_list s env f boardId listId boardName listName abid (.ok cards)
      = (sE, acts, RunRet.raised e) := by
  simp only [analyze_list, hemp, Bool.false_eq_true, if_false]
  rw [hal]

/-- Claim C2 as amended: the per-card action block is not wrapped in any
try/except, so a failure in any single board action — label, comment or
move — raises, aborting the remaining actions for that card, aborting
the processing of every remaining card, and propagating out of
`analyze_list` as a raised exception, so no error field is recorded on
any per-card result.  Part one: each of the three board calls failing
makes the action block raise, with exactly the actions before the
failing step in the trace.  Part two: a raising action block makes
`processCard` raise with no per-card result.  Part three: a raising card
aborts the loop — the cards after it (an arbitrary `pm2`) never
contribute.  Part four: a raising loop makes `analyze_list` return
`raised e`. -/
theorem analyzeList_action_failure_propagates :
    (∀ (env : BoardEnv) (s : DBState) (boardId cid : String) (r : AnalysisResult) (e : String),
      (env.labelErr cid = some e →
        doActions env s boardId cid r = ([], Except.error e))
      ∧ (env.labelErr cid = none → optStrTruthy r.justification = true →
          env.commentErr cid = some e →
          doActions env s boardId cid r
            = ([BoardAction.label cid (r.criticality_level.getD "")], Except.error e))
      ∧ (env.labelErr cid = none →
          (optStrTruthy r.justification = true → env.commentErr cid = none) →
          (∃ cfg tv, s.getConfigByBoard boardId = some cfg
            ∧ cfg.config_data.truthy = true
            ∧ cfg.config_data.getField "targetListId" = some tv
            ∧ tv.truthy = true) →
          env.moveErr cid = some e →
          doActions env s boardId cid r
            = (BoardAction.label cid (r.criticality_level.getD "")
                :: (if optStrTruthy r.justification then
                      [BoardAction.comment cid (r.justification.getD "")] else []),
               Except.error e)))
    ∧ (∀ (env : BoardEnv) (f : CardPayload → AnalyzerOutcome)
        (boardId listId boardName listName : String) (abid : Option Nat)
        (batched : List (String × AnalysisResult)) (s : DBState) (cid : String)
        (p : CardPayload) (acts : List BoardAction) (e : String),
      actionableResult (lookupResult f batched cid p) = true →
      doActions env s boardId cid (lookupResult f batched cid p) = (acts, Except.error e) →
      processCard env f boardId listId boardName listName abid batched s cid p
        = (s, acts, Except.error e))
    ∧ (∀ (env : BoardEnv) (f : CardPayload → AnalyzerOutcome)
        (boardId listId boardName listName : String) (abid : Option Nat)
        (batched : List (String × AnalysisResult)) (pm1 : List (String × CardPayload))
        (s s1 : DBState) (acts1 : List BoardAction) (rs : List AnalysisResult)
        (svs : List SavedTicket) (cid : String) (p : CardPayload)
        (pm2 : List (String × CardPayload)) (sE : DBState) (actsE : List BoardAction) (e : String),
      actionLoop env f boardId listId boardName listName abid batched s pm1
        = (s1, acts1, Except.ok (rs, svs)) →
      processCard env f boardId listId boardName listName abid batched s1 cid p
        = (sE, actsE, Except.error e) →
      actionLoop env f boardId listId boardName listName abid batched s (pm1 ++ (cid, p) :: pm2)
        = (sE, acts1 ++ actsE, Except.error e))
    ∧ (∀ (s : DBState) (env : BoardEnv) (f : CardPayload → AnalyzerOutcome)
        (boardId listId boardName listName : String) (abid : Option Nat) (cards : List Card)
        (sE : DBState) (acts : List BoardAction) (e : String),
      cards.isEmpty = false →
      actionLoop env f boardId listId boardName listName abid
          ((classifyCards abid boardId listId boardName listName s cards).2.2.2.foldl
            (fun m p => insertReplace m p.id (mkResult p (f p))) [])
          (classifyCards abid boardId listId boardName listName s cards).1
          ((classifyCards abid boardId listId boardName listName s cards).2.2.2.foldl
            (fun m p => insertReplace m p.id p) [])
        = (sE, acts, Except.error e) →
      analyze_list s env f boardId listId boardName listName abid (.ok cards)
        = (sE, acts, RunRet.raised e)) :=
  ⟨fun env s boardId cid r e =>
    ⟨fun h => doActions_label_fail env s boardId cid r e h,
     fun hl hj hc => doActions_comment_fail env s boardId cid r e hl hj hc,
     fun hl hcm hex hm => by
       obtain ⟨cfg, tv, hcfg, htr, htl, htv⟩ := hex
       exact doActions_move_fail env s boardId cid r e cfg tv hl hcm hcfg htr htl htv hm⟩,
   fun env f boardId listId boardName listName abid batched s cid p acts e hact hda =>
     processCard_error_of_doActions env f boardId listId boardName listName abid batched
       s cid p acts e hact hda,
   fun env f boardId listId boardName listName abid batched pm1 s s1 acts1 rs svs cid p
       pm2 sE actsE e h1 h2 =>
     actionLoop_error_aborts env f boardId listId boardName listName abid batched pm1
       s s1 acts1 rs svs cid p pm2 sE actsE e h1 h2,
   fun s env f boardId listId boardName listName abid cards sE acts e hemp hal =>
     analyzeList_raised_of_actionLoop_error s env f boardId listId boardName listName abid
       cards sE acts e hemp hal⟩

/-- Witness for the amended C2: a comment failure on the first of two
fresh cards — the label action fires, the comment raises, the second
card is never processed, and the whole run returns the raised
exception. -/
theorem analyzeList_action_failure_propagates_witness :
    doActions c2bEnv c2State "b1" "c1" c2bResult
      = ([BoardAction.label "c1" "HIGH"], Except.error "comment boom")
    ∧ processCard c2bEnv c2Fn "b1" "l1" "Board" "Liste" none [] c2State "c1" c2bPayload
      = (c2State, [BoardAction.label "c1" "HIGH"], Except.error "comment boom")
    ∧ actionLoop c2bEnv c2Fn "b1" "l1" "Board" "Liste" none [] c2State
        [("c1", c2bPayload), ("c2x", c2b2Payload)]
      = (c2State, [BoardAction.label "c1" "HIGH"], Except.error "comment boom")
    ∧ analyze_list c2State c2bEnv c2Fn "b1" "l1" "Board" "Liste" none (.ok [c2Card, c2bCard])
      = (c2State, [BoardAction.label "c1" "HIGH"], RunRet.raised "comment boom") := by
  refine ⟨?_, ?_, ?_, ?_⟩
  · exact (analyzeList_action_failure_propagates.1 c2bEnv c2State "b1" "c1" c2bResult
      "comment boom").2.1 rfl (by decide) rfl
  · exact analyzeList_action_failure_propagates.2.1 c2bEnv c2Fn "b1" "l1" "Board" "Liste" none
      [] c2State "c1" c2bPayload [BoardAction.label "c1" "HIGH"] "comment boom" (by decide) rfl
  · exact analyzeList_action_failure_propagates.2.2.1 c2bEnv c2Fn "b1" "l1" "Board" "Liste" none
      [] [] c2State c2State [] [] [] "c1" c2bPayload [("c2x", c2b2Payload)] c2State
      [BoardAction.label "c1" "HIGH"] "comment boom" rfl rfl
  · exact analyzeList_action_failure_propagates.2.2.2 c2State c2bEnv c2Fn "b1" "l1" "Board"
      "Liste" none [c2Card, c2bCard] c2State [BoardAction.label "c1" "HIGH"] "comment boom"
      rfl rfl

/-! ## Claim C5 — actions only for actionable results -/

theorem actionableResult_spec (r : AnalysisResult) (h : actionableResult r = true) :
    r.success = true ∧ r.criticality_level ≠ none
      ∧ r.criticality_level ≠ some "OUT_OF_CONTEXT" := by
  simp [actionableResult] at h
  exact ⟨h.1.1, h.1.2, h.2⟩

theorem doMove_ok (env : BoardEnv) (s : DBState) (boardId cid : String) (r : AnalysisResult)
    (acts0 acts : List BoardAction) (r' : AnalysisResult)
    (h : doMove env s boardId cid r acts0 = (acts, Except.ok r')) :
    r'.success = r.success ∧ r'.criticality_level = r.criticality_level
    ∧ r'.justification = r.justification ∧ r'.from_cache = r.from_cache
    ∧ r'.card_id = r.card_id
    ∧ (∀ a ∈ acts, a ∈ acts0 ∨ a.cardId = cid) := by
  unfold doMove at h
  split at h
  · simp only [Prod.mk.injEq, Except.ok.injEq] at h
    obtain ⟨ha, hr⟩ := h
    subst ha
    subst hr
    exact ⟨rfl, rfl, rfl, rfl, rfl, fun a ha => Or.inl ha⟩
  · split at h
    · split at h
      · simp only [Prod.mk.injEq, Except.ok.injEq] at h
        obtain ⟨ha, hr⟩ := h
        subst ha
        subst hr
        exact ⟨rfl, rfl, rfl, rfl, rfl, fun a ha => Or.inl ha⟩
      · split at h
        · split at h
          · exact absurd h (by simp)
          · simp only [Prod.mk.injEq, Except.ok.injEq] at h
            obtain ⟨ha, hr⟩ := h
            subst ha
            subst hr
            refine ⟨rfl, rfl, rfl, rfl, rfl, ?_⟩
            intro a ha
            rcases List.mem_append.mp ha with h1 | h1
            · exact Or.inl h1
            · rw [List.mem_singleton] at h1
              subst h1
              exact Or.inr rfl
        · simp only [Prod.mk.injEq, Except.ok.injEq] at h
          obtain ⟨ha, hr⟩ := h
          subst ha
          subst hr
          exact ⟨rfl, rfl, rfl, rfl, rfl, fun a ha => Or.inl ha⟩
    · simp only [Prod.mk.injEq, Except.ok.injEq] at h
      obtain ⟨ha, hr⟩ := h
      subst ha
      subst hr
      exact ⟨rfl, rfl, rfl, rfl, rfl, fun a ha => Or.inl ha⟩

theorem doCommentMove_ok (env : BoardEnv) (s : DBState) (boardId cid : String)
    (r : AnalysisResult) (acts : List BoardAction) (r' : AnalysisResult)
    (h : doCommentMove env s boardId cid r = (acts, Except.ok r')) :
    r'.success = r.success ∧ r'.criticality_level = r.criticality_level
    ∧ r'.justification = r.justification ∧ r'.from_cache = r.from_cache
    ∧ r'.card_id = r.card_id
    ∧ (∀ a ∈ acts, a.cardId = cid) := by
  unfold doCommentMove at h
  split at h
  · split at h
    · exact absurd h (by simp)
    · have hmv := doMove_ok env s boardId cid _ _ acts r' h
      refine ⟨hmv.1, hmv.2.1, hmv.2.2.1, hmv.2.2.2.1, hmv.2.2.2.2.1, ?_⟩
      intro a ha
      rcases hmv.2.2.2.2.2 a ha with h1 | h1
      · rw [List.mem_singleton] at h1
        subst h1
        rfl
      · exact h1
  · have hmv := doMove_ok env s boardId cid _ _ acts r' h
    refine ⟨hmv.1, hmv.2.1, hmv.2.2.1, hmv.2.2.2.1, hmv.2.2.2.2.1, ?_⟩
    intro a ha
    rcases hmv.2.2.2.2.2 a ha with h1 | h1
    · cases h1
    · exact h1

theorem doActions_ok (env : BoardEnv) (s : DBState) (boardId cid : String)
    (r : AnalysisResult) (acts : List BoardAction) (r' : AnalysisResult)
    (h : doActions env s boardId cid r = (acts, Except.ok r')) :
    r'.success = r.success ∧ r'.criticality_level = r.criticality_level
    ∧ r'.justification = r.justification ∧ r'.from_cache = r.from_cache
    ∧ r'.card_id = r.card_id
    ∧ (∀ a ∈ acts, a.cardId = cid) := by
  unfold doActions at h
  split at h
  · exact absurd h (by simp)
  · cases hcm : doCommentMove env s boardId cid { r with label_added := true } with
    | mk acts1 res1 =>
      rw [hcm] at h
      cases res1 with
      | error e => exact absurd h (by simp)
      | ok rr =>
        simp only [Prod.mk.injEq, Except.ok.injEq] at h
        obtain ⟨ha, hr⟩ := h
        rw [← hr]
        have hcmf := doCommentMove_ok env s boardId cid _ acts1 rr hcm
        refine ⟨hcmf.1, hcmf.2.1, hcmf.2.2.1, hcmf.2.2.2.1, hcmf.2.2.2.2.1, ?_⟩
        intro a haa
        rw [← ha] at haa
        rcases List.mem_append.mp haa with h1 | h1
        · rw [List.mem_singleton] at h1
          subst h1
          rfl
        · exact hcmf.2.2.2.2.2 a h1

theorem insertReplace_entries {α : Type} (P : String × α → Prop) (k : String) (v : α)
    (hv : P (k, v)) :
    ∀ (m : List (String × α)), (∀ kv ∈ m, P kv) → ∀ kv ∈ insertReplace m k v, P kv := by
  intro m
  induction m with
  | nil =>
    intro hm kv hkv
    simp only [insertReplace, List.mem_singleton] at hkv
    subst hkv
    exact hv
  | cons hd tl ih =>
    intro hm kv hkv
    by_cases hk : hd.1 == k
    · simp only [insertReplace, if_pos hk] at hkv
      rcases List.mem_cons.mp hkv with h1 | h1
      · subst h1; exact hv
      · exact hm kv (List.mem_cons_of_mem hd h1)
    · simp only [insertReplace, if_neg hk] at hkv
      rcases List.mem_cons.mp hkv with h1 | h1
      · rw [h1]; exact hm hd (List.mem_cons_self hd tl)
      · exact ih (fun x hx => hm x (List.mem_cons_of_mem hd hx)) kv h1

theorem foldl_insertReplace_entries {α β : Type} (P : String × α → Prop)
    (key : β → String) (val : β → α) (l : List β) (hval : ∀ b, P (key b, val b)) :
    ∀ m₀, (∀ kv ∈ m₀, P kv) →
      ∀ kv ∈ l.foldl (fun m b => insertReplace m (key b) (val b)) m₀, P kv := by
  induction l with
  | nil => intro m₀ hm₀ kv hkv; exact hm₀ kv hkv
  | cons b tl ih =>
    intro m₀ hm₀ kv hkv
    exact ih (insertReplace m₀ (key b) (val b))
      (insertReplace_entries P (key b) (val b) (hval b) m₀ hm₀) kv hkv

theorem assocFind_mem {α : Type} (m : List (String × α)) (k : String) (v : α)
    (h : assocFind m k = some v) : ∃ kv ∈ m, kv.1 = k ∧ kv.2 = v := by
  unfold assocFind at h
  cases hf : m.find? (fun kv => kv.1 == k) with
  | none => rw [hf] at h; cases h
  | some kv =>
    rw [hf] at h
    simp only [Option.some.injEq] at h
    have hm := List.mem_of_find?_eq_some hf
    have hp := List.find?_some hf
    simp only [beq_iff_eq] at hp
    exact ⟨kv, hm, hp, h⟩

theorem lookupResult_spec (f : CardPayload → AnalyzerOutcome) (toA : List CardPayload)
    (cid : String) (p : CardPayload) (hpid : p.id = cid) :
    ∃ q, lookupResult f (toA.foldl (fun m q => insertReplace m q.id (mkResult q (f q))) []) cid p
        = mkResult q (f q)
      ∧ (mkResult q (f q)).card_id = cid := by
  unfold lookupResult
  cases hfind : assocFind (toA.foldl (fun m q => insertReplace m q.id (mkResult q (f q))) []) cid with
  | none => exact ⟨p, rfl, by simp [mkResult, hpid]⟩
  | some r =>
    obtain ⟨kv, hmem, hk, hv⟩ := assocFind_mem _ _ _ hfind
    have hP : ∃ q, kv.2 = mkResult q (f q) ∧ kv.2.card_id = kv.1 :=
      foldl_insertReplace_entries
        (fun kv => ∃ q, kv.2 = mkResult q (f q) ∧ kv.2.card_id = kv.1)
        (fun q => q.id) (fun q => mkResult q (f q)) toA
        (fun q => ⟨q, rfl, by simp [mkResult]⟩) [] (by intro kv hkv; cases hkv) kv hmem
    obtain ⟨q, hq, hcard⟩ := hP
    refine ⟨q, ?_, ?_⟩
    · rw [← hv, hq]
    · rw [← hq]
      exact hcard.trans hk

theorem processCard_ok_spec (env : BoardEnv) (f : CardPayload → AnalyzerOutcome)
    (boardId listId boardName listName : String) (abid : Option Nat)
    (toA : List CardPayload) (s : DBState) (cid : String) (p : CardPayload) (hpid : p.id = cid)
    (s1 : DBState) (acts : List BoardAction) (r' : AnalysisResult) (sv : List SavedTicket)
    (h : processCard env f boardId listId boardName listName abid
        (toA.foldl (fun m q => insertReplace m q.id (mkResult q (f q))) []) s cid p
      = (s1, acts, Except.ok (r', sv))) :
    r'.card_id = cid
    ∧ (∃ q, r'.criticality_level = (f q).criticality_level ∧ r'.from_cache = false)
    ∧ (acts ≠ [] → r'.success = true ∧ r'.criticality_level ≠ none
        ∧ r'.criticality_level ≠ some "OUT_OF_CONTEXT")
    ∧ (∀ a ∈ acts, a.cardId = cid) := by
  obtain ⟨q, hlq, hqcid⟩ := lookupResult_spec f toA cid p hpid
  unfold processCard at h
  simp only [hlq] at h
  split at h
  case isTrue hact =>
    cases hda : doActions env s boardId cid (mkResult q (f q)) with
    | mk acts2 res2 =>
      rw [hda] at h
      cases res2 with
      | error e => exact absurd h (by simp)
      | ok rr =>
        simp only [Prod.mk.injEq, Except.ok.injEq] at h
        obtain ⟨hs1, hacts, hrr, hsv⟩ := h
        have hdf := doActions_ok env s boardId cid _ acts2 rr hda
        rw [← hrr, ← hacts]
        refine ⟨?_, ⟨q, ?_, ?_⟩, ?_, ?_⟩
        · rw [hdf.2.2.2.2.1]
          exact hqcid
        · rw [hdf.2.1]
          simp [mkResult]
        · rw [hdf.2.2.2.1]
          simp [mkResult]
        · intro hne
          have hsp := actionableResult_spec _ hact
          refine ⟨?_, ?_, ?_⟩
          · rw [hdf.1]; exact hsp.1
          · rw [hdf.2.1]; exact hsp.2.1
          · rw [hdf.2.1]; exact hsp.2.2
        · exact hdf.2.2.2.2.2
  case isFalse hact =>
    simp only [Prod.mk.injEq, Except.ok.injEq] at h
    obtain ⟨hs1, hacts, hrr, hsv⟩ := h
    rw [← hrr, ← hacts]
    refine ⟨hqcid, ⟨q, rfl, by simp [mkResult]⟩, ?_, ?_⟩
    · intro hne
      exact absurd rfl hne
    · intro a ha
      cases ha

theorem level_in_hml {lv : Option String}
    (hmem : lv ∈ ([some "HIGH", some "MEDIUM", some "LOW", some "OUT_OF_CONTEXT"] : List (Option String)))
    (hne : lv ≠ some "OUT_OF_CONTEXT") :
    lv ∈ ([some "HIGH", some "MEDIUM", some "LOW"] : List (Option String)) := by
  simp only [List.mem_cons, List.mem_singleton, List.not_mem_nil, or_false] at hmem ⊢
  rcases hmem with h | h | h | h
  · exact Or.inl h
  · exact Or.inr (Or.inl h)
  · exact Or.inr (Or.inr h)
  · exact absurd h hne

theorem actionLoop_ok_trace (env : BoardEnv) (f : CardPayload → AnalyzerOutcome)
    (boardId listId boardName listName : String) (abid : Option Nat) (toA : List CardPayload)
    (hcod : ∀ q, (f q).criticality_level
        ∈ ([some "HIGH", some "MEDIUM", some "LOW", some "OUT_OF_CONTEXT"] : List (Option String))) :
    ∀ (pm : List (String × CardPayload)), (∀ kv ∈ pm, kv.2.id = kv.1) →
    ∀ (s s2 : DBState) (acts : List BoardAction) (rs : List AnalysisResult)
      (svs : List SavedTicket),
      actionLoop env f boardId listId boardName listName abid
          (toA.foldl (fun m q => insertReplace m q.id (mkResult q (f q))) []) s pm
        = (s2, acts, Except.ok (rs, svs)) →
      ∀ a ∈ acts, ∃ r ∈ rs, r.card_id = a.cardId ∧ r.success = true
        ∧ r.criticality_level ∈ ([some "HIGH", some "MEDIUM", some "LOW"] : List (Option String)) := by
  intro pm
  induction pm with
  | nil =>
    intro hpm s s2 acts rs svs h a ha
    simp only [actionLoop, Prod.mk.injEq, Except.ok.injEq] at h
    rw [← h.2.1] at ha
    cases ha
  | cons hd tl ih =>
    intro hpm s s2 acts rs svs h a ha
    cases hd with
    | mk cid p =>
      unfold actionLoop at h
      cases hpc : processCard env f boardId listId boardName listName abid
          (toA.foldl (fun m q => insertReplace m q.id (mkResult q (f q))) []) s cid p with
      | mk sA restA =>
        rw [hpc] at h
        cases restA with
        | mk actsA resA =>
          cases resA with
          | error e => exact absurd h (by simp)
          | ok prA =>
            cases prA with
            | mk rA svA =>
              dsimp only at h
              cases hrec : actionLoop env f boardId listId boardName listName abid
                  (toA.foldl (fun m q => insertReplace m q.id (mkResult q (f q))) []) sA tl with
              | mk sB restB =>
                rw [hrec] at h
                cases restB with
                | mk actsB resB =>
                  cases resB with
                  | error e => exact absurd h (by simp)
                  | ok prB =>
                    cases prB with
                    | mk rsB svsB =>
                      simp only [Prod.mk.injEq, Except.ok.injEq] at h
                      obtain ⟨hs2, hacts, hrs, hsvs⟩ := h
                      rw [← hacts] at ha
                      rw [← hrs]
                      have hpid : p.id = cid := hpm (cid, p) (List.mem_cons_self _ _)
                      rcases List.mem_append.mp ha with h1 | h1
                      · have hspec := processCard_ok_spec env f boardId listId boardName listName
                          abid toA s cid p hpid sA actsA rA svA hpc
                        have hne : actsA ≠ [] := by
                          intro hnil
                          rw [hnil] at h1
                          cases h1
                        obtain ⟨q, hq1, _⟩ := hspec.2.1
                        have hlv := level_in_hml (hq1 ▸ hcod q) (hspec.2.2.1 hne).2.2
                        refine ⟨rA, List.mem_cons_self _ _, ?_, (hspec.2.2.1 hne).1, hlv⟩
                        rw [hspec.2.2.2 a h1, hspec.1]
                      · obtain ⟨r, hrmem, hrprops⟩ :=
                          ih (fun kv hkv => hpm kv (List.mem_cons_of_mem _ hkv))
                            sA sB actsB rsB svsB hrec a h1
                        exact ⟨r, List.mem_cons_of_mem _ hrmem, hrprops⟩

theorem analyze_list_ok_inv (s : DBState) (env : BoardEnv) (f : CardPayload → AnalyzerOutcome)
    (boardId listId boardName listName : String) (abid : Option Nat) (cards : List Card)
    (s2 : DBState) (acts : List BoardAction) (out : RunOutput)
    (hemp : cards.isEmpty = false)
    (hrun : analyze_list s env f boardId listId boardName listName abid (.ok cards)
      = (s2, acts, RunRet.ok out)) :
    ∃ rs svs,
      actionLoop env f boardId listId boardName listName abid
          ((classifyCards abid boardId listId boardName listName s cards).2.2.2.foldl
            (fun m p => insertReplace m p.id (mkResult p (f p))) [])
          (classifyCards abid boardId listId boardName listName s cards).1
          ((classifyCards abid boardId listId boardName listName s cards).2.2.2.foldl
            (fun m p => insertReplace m p.id p) [])
        = (s2, acts, Except.ok (rs, svs))
      ∧ out.cards_analysis
        = (classifyCards abid boardId listId boardName listName s cards).2.1 ++ rs := by
  simp only [analyze_list, hemp, Bool.false_eq_true, if_false] at hrun
  simp only [Prod.mk.injEq] at hrun
  obtain ⟨h1, h2, h3⟩ := hrun
  cases hal : actionLoop env f boardId listId boardName listName abid
      ((classifyCards abid boardId listId boardName listName s cards).2.2.2.foldl
        (fun m p => insertReplace m p.id (mkResult p (f p))) [])
      (classifyCards abid boardId listId boardName listName s cards).1
      ((classifyCards abid boardId listId boardName listName s cards).2.2.2.foldl
        (fun m p => insertReplace m p.id p) []) with
  | mk sB restB =>
    rw [hal] at h1 h2 h3
    cases restB with
    | mk actsB resB =>
      cases resB with
      | error e => exact absurd h3 (by simp)
      | ok arsn =>
        cases arsn with
        | mk rsB svsB =>
          simp only [RunRet.ok.injEq] at h3
          dsimp only at h1 h2
          refine ⟨rsB, svsB, ?_, ?_⟩
          · rw [h1, h2]
          · rw [← h3]

theorem analyzeList_out_of_context_run (s : DBState) (env : BoardEnv)
    (f : CardPayload → AnalyzerOutcome) (boardId listId boardName listName : String)
    (n : Nat) (c : Card) (ab : AnalyseBoardRow) (just : Option String)
    (hnotick : s.getTicketByTicketId c.id = none)
    (hf : f (c.toPayload listName boardId boardName)
        = { criticality_level := some "OUT_OF_CONTEXT", justification := just
            success := true, error := none })
    (hn : (n != 0) = true)
    (hcfg : s.getConfigByBoard boardId = none)
    (hab : s.analyseBoards.find? (fun b => b.id == n) = some ab)
    (hai : (ab.analyse_id != 0) = true) :
    (analyze_list s env f boardId listId boardName listName (some n) (.ok [c])).2.1 = []
    ∧ ((analyze_list s env f boardId listId boardName listName (some n) (.ok [c])).1.histories.map
        (fun h => h.criticality_level))
      = s.histories.map (fun h => h.criticality_level) ++ [some "out_of_context"] := by
  have hlow : pyLower "OUT_OF_CONTEXT" = "out_of_context" := by decide
  have hcfg' : s.configs.find? (fun cf =>
      match cf.config_data.getField "boardId" with
      | some (Json.str b) => b == boardId
      | _ => false) = none := by
    simpa [DBState.getConfigByBoard] using hcfg
  simp only [Card.toPayload] at hf
  constructor
  · simp [analyze_list, classifyCards, cacheHitInfo, classifyStepState, hnotick,
      lookupResult, assocFind, List.find?, insertReplace, actionLoop, processCard,
      actionableResult, mkResult, Card.toPayload, hf]
  · simp [analyze_list, classifyCards, cacheHitInfo, classifyStepState, hnotick,
      lookupResult, assocFind, List.find?, insertReplace, actionLoop, processCard,
      actionableResult, mkResult, Card.toPayload, hf, persistCard, optNatTruthy, hn,
      ensure_ticket, snapshotConfig, DBState.getConfigByBoard, hcfg', persistHistory,
      hab, hai, save_history, hlow]
    decide

/-- Counterexample to C5 as stated: for a card whose analyzer result is
`success=true, criticality_level=OUT_OF_CONTEXT` and with persistence
enabled, no board action is performed, but a History row IS written
(with the level stored as "out_of_context"), whereas the claim says no
History row is written for that card. -/
theorem analyzeList_out_of_context_counterexample :
    ((analyze_list c5State c5Env c5Fn "b5" "l5" "B5" "L5" (some 1) (.ok [c5Card])).1.histories.map
        (fun h => h.criticality_level)) = [some "out_of_context"]
    ∧ (analyze_list c5State c5Env c5Fn "b5" "l5" "B5" "L5" (some 1) (.ok [c5Card])).2.1 = [] :=
  ⟨rfl, rfl⟩

/-- Claim C5 as amended: (1) every board action of a successful run
belongs to a card whose result has `success=true` and criticality level
in HIGH/MEDIUM/LOW (given that analyzer results range over
HIGH/MEDIUM/LOW/OUT_OF_CONTEXT), so OUT_OF_CONTEXT cards receive no
label, comment or move; (2) however, for an OUT_OF_CONTEXT result with
`success=true` and persistence enabled, a History row IS written, with
the criticality stored as "out_of_context". -/
theorem analyzeList_actions_only_for_hml :
    (∀ (s : DBState) (env : BoardEnv) (f : CardPayload → AnalyzerOutcome)
        (boardId listId boardName listName : String) (abid : Option Nat) (cards : List Card)
        (s2 : DBState) (acts : List BoardAction) (out : RunOutput),
      (∀ q, (f q).criticality_level
          ∈ ([some "HIGH", some "MEDIUM", some "LOW", some "OUT_OF_CONTEXT"] : List (Option String))) →
      analyze_list s env f boardId listId boardName listName abid (.ok cards)
        = (s2, acts, RunRet.ok out) →
      ∀ a ∈ acts, ∃ r ∈ out.cards_analysis, r.card_id = a.cardId ∧ r.success = true
        ∧ r.criticality_level ∈ ([some "HIGH", some "MEDIUM", some "LOW"] : List (Option String)))
    ∧ (∀ (s : DBState) (env : BoardEnv) (f : CardPayload → AnalyzerOutcome)
        (boardId listId boardName listName : String) (n : Nat) (c : Card)
        (ab : AnalyseBoardRow) (just : Option String),
      s.getTicketByTicketId c.id = none →
      f (c.toPayload listName boardId boardName)
        = { criticality_level := some "OUT_OF_CONTEXT", justification := just
            success := true, error := none } →
      (n != 0) = true →
      s.getConfigByBoard boardId = none →
      s.analyseBoards.find? (fun b => b.id == n) = some ab →
      (ab.analyse_id != 0) = true →
      (analyze_list s env f boardId listId boardName listName (some n) (.ok [c])).2.1 = []
      ∧ ((analyze_list s env f boardId listId boardName listName (some n) (.ok [c])).1.histories.map
          (fun h => h.criticality_level))
        = s.histories.map (fun h => h.criticality_level) ++ [some "out_of_context"]) := by
  constructor
  · intro s env f boardId listId boardName listName abid cards s2 acts out hcod hrun a ha
    by_cases hemp : cards.isEmpty = true
    · simp only [analyze_list, hemp, if_true] at hrun
      simp only [Prod.mk.injEq] at hrun
      rw [← hrun.2.1] at ha
      cases ha
    · have hemp' : cards.isEmpty = false := by simpa using hemp
      obtain ⟨rs, svs, hal, hout⟩ :=
        analyze_list_ok_inv s env f boardId listId boardName listName abid cards s2 acts out hemp' hrun
      have hpm : ∀ kv ∈ ((classifyCards abid boardId listId boardName listName s cards).2.2.2.foldl
          (fun m p => insertReplace m p.id p) []), kv.2.id = kv.1 := by
        intro kv hkv
        exact foldl_insertReplace_entries (fun (kv : String × CardPayload) => kv.2.id = kv.1)
          (fun (p : CardPayload) => p.id) (fun (p : CardPayload) => p)
          ((classifyCards abid boardId listId boardName listName s cards).2.2.2)
          (fun p => rfl) [] (by intro kv hkv; cases hkv) kv hkv
      obtain ⟨r, hrmem, hrp⟩ :=
        actionLoop_ok_trace env f boardId listId boardName listName abid _ hcod _ hpm _ _ _ _ _ hal a ha
      refine ⟨r, ?_, hrp⟩
      rw [hout]
      exact List.mem_append_right _ hrmem
  · intro s env f boardId listId boardName listName n c ab just h1 h2 h3 h4 h5 h6
    exact analyzeList_out_of_context_run s env f boardId listId boardName listName n c ab just
      h1 h2 h3 h4 h5 h6

/-- Witness for the amended C5: part one at the empty-list run, part two
at the concrete OUT_OF_CONTEXT run on `c5State`. -/
theorem analyzeList_actions_only_for_hml_witness :
    (∀ a ∈ ([] : List BoardAction), ∃ r ∈ c5EmptyOut.cards_analysis, r.card_id = a.cardId
        ∧ r.success = true
        ∧ r.criticality_level ∈ ([some "HIGH", some "MEDIUM", some "LOW"] : List (Option String)))
    ∧ ((analyze_list c5State c5Env c5Fn "b5" "l5" "B5" "L5" (some 1) (.ok [c5Card])).2.1 = []
      ∧ ((analyze_list c5State c5Env c5Fn "b5" "l5" "B5" "L5" (some 1) (.ok [c5Card])).1.histories.map
          (fun h => h.criticality_level))
        = c5State.histories.map (fun h => h.criticality_level) ++ [some "out_of_context"]) :=
  by
  refine ⟨?_, ?_⟩
  · exact analyzeList_actions_only_for_hml.1 c5State c5Env c5Fn "b5" "l5" "B5" "L5" none []
      c5State [] c5EmptyOut (fun q => by
        show (some "OUT_OF_CONTEXT" : Option String)
          ∈ [some "HIGH", some "MEDIUM", some "LOW", some "OUT_OF_CONTEXT"]
        decide) rfl
  · exact analyzeList_actions_only_for_hml.2 c5State c5Env c5Fn "b5" "l5" "B5" "L5" 1 c5Card
      ⟨1, 2, some "trello"⟩ (some "hors contexte") rfl rfl (by decide) rfl rfl (by decide)

/-! ## Claim C1 — cache soundness -/

theorem getF_popF_ne (k k' : String) (hne : (k == k') = false) :
    ∀ m : JsonMap, (m.popF k).getF k' = m.getF k'
  | .nil => rfl
  | .cons k0 v tl => by
    have hne2 : ¬ k = k' := by simpa using hne
    by_cases h0 : k0 = k
    · subst h0
      simp [JsonMap.popF, JsonMap.getF, hne2]
    · by_cases h1 : k0 = k'
      · have hne3 : ¬ k' = k := fun h => hne2 h.symm
        simp [JsonMap.popF, JsonMap.getF, h0, h1, hne3]
      · simp [JsonMap.popF, JsonMap.getF, h0, h1, getF_popF_ne k k' hne tl]

theorem getField_popField_ne (k k' : String) (hne : (k == k') = false) (j : Json) :
    (j.popField k).getField k' = j.getField k' := by
  cases j with
  | obj fs => exact getF_popF_ne k k' hne fs
  | null => rfl
  | bool b => rfl
  | num n => rfl
  | str s => rfl
  | arr a => rfl

theorem dropAnalysisResult_tid (t : TicketRow) :
    (dropAnalysisResult t).ticket_id = t.ticket_id := by
  unfold dropAnalysisResult
  split <;> rfl

theorem dropAnalysisResult_lastCfg (t : TicketRow) :
    lastCfgOf (dropAnalysisResult t) = lastCfgOf t := by
  unfold dropAnalysisResult
  split
  · show ((some ((t.ticket_metadata.getD (Json.obj .nil)).popField "analysis_result")).getD
        (Json.obj .nil)).getField "last_analysis_config"
      = lastCfgOf t
    simp only [Option.getD]
    exact getField_popField_ne "analysis_result" "last_analysis_config" (by decide) _
  · rfl

theorem find?_updateFirstTicket_lastCfg (tid tid' : String) :
    ∀ l : List TicketRow,
      Option.map lastCfgOf
        ((updateFirstTicket (fun t => t.ticket_id == tid) dropAnalysisResult l).find?
          (fun t => t.ticket_id == tid'))
      = Option.map lastCfgOf (l.find? (fun t => t.ticket_id == tid')) := by
  intro l
  induction l with
  | nil => rfl
  | cons t ts ih =>
    unfold updateFirstTicket
    cases hp : (t.ticket_id == tid) with
    | true =>
      simp only [if_true]
      cases hq : (t.ticket_id == tid') with
      | true =>
        have hq2 : ((dropAnalysisResult t).ticket_id == tid') = true := by
          rw [dropAnalysisResult_tid]; exact hq
        simp [List.find?, hq, hq2, dropAnalysisResult_lastCfg]
      | false =>
        have hq2 : ((dropAnalysisResult t).ticket_id == tid') = false := by
          rw [dropAnalysisResult_tid]; exact hq
        simp [List.find?, hq, hq2]
    | false =>
      simp only [Bool.false_eq_true, if_false]
      cases hq : (t.ticket_id == tid') with
      | true => simp [List.find?, hq]
      | false => simp [List.find?, hq, ih]

theorem invalidate_lastCfg (s : DBState) (tid tid' : String) :
    Option.map lastCfgOf ((invalidate_analysis_cache s tid).getTicketByTicketId tid')
      = Option.map lastCfgOf (s.getTicketByTicketId tid') :=
  find?_updateFirstTicket_lastCfg tid tid' s.tickets

theorem getConfigByBoard_congr (s s' : DBState) (boardId : String)
    (hc : s'.configs = s.configs) :
    s'.getConfigByBoard boardId = s.getConfigByBoard boardId := by
  unfold DBState.getConfigByBoard
  rw [hc]

theorem classifyStepState_configs (s : DBState) (boardId : String) (c : Card) :
    (classifyStepState s boardId c).configs = s.configs := by
  unfold classifyStepState
  cases s.getTicketByTicketId c.id with
  | none => rfl
  | some t =>
    dsimp only
    split
    · split
      · rfl
      · rfl
    · rfl

theorem classifyStepState_lastCfg (s : DBState) (boardId : String) (c : Card) (tid' : String) :
    Option.map lastCfgOf ((classifyStepState s boardId c).getTicketByTicketId tid')
      = Option.map lastCfgOf (s.getTicketByTicketId tid') := by
  unfold classifyStepState
  cases s.getTicketByTicketId c.id with
  | none => rfl
  | some t =>
    dsimp only
    split
    · split
      · rfl
      · exact invalidate_lastCfg s c.id tid'
    · rfl

theorem cache_valid_spec (s : DBState) (t : TicketRow) (boardId : String)
    (h : is_cache_valid_for_config s t boardId = true) :
    ∃ cfg last, s.getConfigByBoard boardId = some cfg ∧ lastCfgOf t = some last
      ∧ Json.ser cfg.config_data = Json.ser last := by
  unfold is_cache_valid_for_config at h
  cases hcfg : s.getConfigByBoard boardId with
  | none => rw [hcfg] at h; cases h
  | some cfg =>
    rw [hcfg] at h
    simp only at h
    split at h
    · cases h
    · split at h
      · cases h
      · split at h
        case h_1 => cases h
        case h_2 lastCfg heq =>
          refine ⟨cfg, lastCfg, rfl, heq, ?_⟩
          simpa using h

theorem cacheHitInfo_sound (s : DBState) (abid : Option Nat) (boardId : String) (c : Card)
    (r : AnalysisResult) (sv : List SavedTicket)
    (h : cacheHitInfo s abid boardId c = some (r, sv)) :
    r.from_cache = true ∧ r.card_id = c.id
    ∧ ∃ cfg t last, s.getConfigByBoard boardId = some cfg
        ∧ s.getTicketByTicketId c.id = some t
        ∧ lastCfgOf t = some last
        ∧ Json.ser cfg.config_data = Json.ser last := by
  unfold cacheHitInfo at h
  cases ht : s.getTicketByTicketId c.id with
  | none => rw [ht] at h; cases h
  | some t =>
    rw [ht] at h
    dsimp only at h
    split at h
    case isTrue hmeta =>
      split at h
      case isTrue hvalid =>
        split at h
        case h_1 hh hheq =>
          simp only [Option.some.injEq, Prod.mk.injEq] at h
          obtain ⟨hr, hsv⟩ := h
          obtain ⟨cfg, last, hcfg, hlast, hser⟩ := cache_valid_spec s t boardId hvalid
          rw [← hr]
          exact ⟨rfl, rfl, cfg, t, last, hcfg, rfl, hlast, hser⟩
        case h_2 => cases h
      case isFalse => cases h
    case isFalse => cases h

theorem classify_cache_sound (abid : Option Nat) (boardId listId boardName listName : String)
    (s : DBState) :
    ∀ (cards : List Card) (s' : DBState),
      s'.configs = s.configs →
      (∀ tid, Option.map lastCfgOf (s'.getTicketByTicketId tid)
        = Option.map lastCfgOf (s.getTicketByTicketId tid)) →
      ∀ r ∈ (classifyCards abid boardId listId boardName listName s' cards).2.1,
        ∃ cfg t last,
          s.getConfigByBoard boardId = some cfg
          ∧ s.getTicketByTicketId r.card_id = some t
          ∧ lastCfgOf t = some last
          ∧ Json.ser cfg.config_data = Json.ser last := by
  intro cards
  induction cards with
  | nil =>
    intro s' hc ht r hr
    simp only [classifyCards] at hr
    cases hr
  | cons c rest ih =>
    intro s' hc ht r hr
    simp only [classifyCards] at hr
    cases hhit : cacheHitInfo s' abid boardId c with
    | some rsv =>
      cases rsv with
      | mk rr sv =>
        simp only [hhit] at hr
        rcases List.mem_cons.mp hr with h1 | h1
        · obtain ⟨hfc, hcid, cfg, t', last, hcfg', ht', hlast', hser⟩ :=
            cacheHitInfo_sound s' abid boardId c rr sv hhit
          have hcfgs : s.getConfigByBoard boardId = some cfg := by
            rw [← getConfigByBoard_congr s s' boardId hc]; exact hcfg'
          have htr := ht c.id
          rw [ht'] at htr
          cases hts : s.getTicketByTicketId c.id with
          | none => rw [hts] at htr; cases htr
          | some t =>
            rw [hts] at htr
            have htr2 : lastCfgOf t' = lastCfgOf t := by simpa using htr
            refine ⟨cfg, t, last, hcfgs, ?_, ?_, hser⟩
            · rw [h1, hcid]; exact hts
            · rw [← htr2]; exact hlast'
        · exact ih s' hc ht r h1
    | none =>
      simp only [hhit] at hr
      exact ih (classifyStepState s' boardId c)
        (by rw [classifyStepState_configs]; exact hc)
        (fun tid => by rw [classifyStepState_lastCfg]; exact ht tid) r hr

theorem actionLoop_ok_not_cached (env : BoardEnv) (f : CardPayload → AnalyzerOutcome)
    (boardId listId boardName listName : String) (abid : Option Nat) (toA : List CardPayload) :
    ∀ (pm : List (String × CardPayload)), (∀ kv ∈ pm, kv.2.id = kv.1) →
    ∀ (s s2 : DBState) (acts : List BoardAction) (rs : List AnalysisResult)
      (svs : List SavedTicket),
      actionLoop env f boardId listId boardName listName abid
          (toA.foldl (fun m q => insertReplace m q.id (mkResult q (f q))) []) s pm
        = (s2, acts, Except.ok (rs, svs)) →
      ∀ r ∈ rs, r.from_cache = false := by
  intro pm
  induction pm with
  | nil =>
    intro hpm s s2 acts rs svs h r hr
    simp only [actionLoop, Prod.mk.injEq, Except.ok.injEq] at h
    rw [← h.2.2.1] at hr
    cases hr
  | cons hd tl ih =>
    intro hpm s s2 acts rs svs h r hr
    cases hd with
    | mk cid p =>
      unfold actionLoop at h
      cases hpc : processCard env f boardId listId boardName listName abid
          (toA.foldl (fun m q => insertReplace m q.id (mkResult q (f q))) []) s cid p with
      | mk sA restA =>
        rw [hpc] at h
        cases restA with
        | mk actsA resA =>
          cases resA with
          | error e => exact absurd h (by simp)
          | ok prA =>
            cases prA with
            | mk rA svA =>
              dsimp only at h
              cases hrec : actionLoop env f boardId listId boardName listName abid
                  (toA.foldl (fun m q => insertReplace m q.id (mkResult q (f q))) []) sA tl with
              | mk sB restB =>
                rw [hrec] at h
                cases restB with
                | mk actsB resB =>
                  cases resB with
                  | error e => exact absurd h (by simp)
                  | ok prB =>
                    cases prB with
                    | mk rsB svsB =>
                      simp only [Prod.mk.injEq, Except.ok.injEq] at h
                      obtain ⟨hs2, hacts, hrs, hsvs⟩ := h
                      rw [← hrs] at hr
                      have hpid : p.id = cid := hpm (cid, p) (List.mem_cons_self _ _)
                      rcases List.mem_cons.mp hr with h1 | h1
                      · have hspec := processCard_ok_spec env f boardId listId boardName listName
                          abid toA s cid p hpid sA actsA rA svA hpc
                        obtain ⟨q, _, hqfc⟩ := hspec.2.1
                        rw [h1]
                        exact hqfc
                      · exact ih (fun kv hkv => hpm kv (List.mem_cons_of_mem _ hkv))
                          sA sB actsB rsB svsB hrec r h1

/-- Claim C1: in `analyze_list`, whenever a per-card result has
`from_cache = true`, the board's current Config payload (which the run
never modifies before the cache check, so equality in the entry state is
equality at the moment of the check) serializes, key-sorted, to the same
string as the `last_analysis_config` snapshot on the corresponding
ticket's metadata; a prior history is reused only under that equality. -/
theorem analyzeList_cache_soundness (s : DBState) (env : BoardEnv)
    (f : CardPayload → AnalyzerOutcome) (boardId listId boardName listName : String)
    (abid : Option Nat) (cards : List Card) (s2 : DBState) (acts : List BoardAction)
    (out : RunOutput)
    (hrun : analyze_list s env f boardId listId boardName listName abid (.ok cards)
      = (s2, acts, RunRet.ok out)) :
    ∀ r ∈ out.cards_analysis, r.from_cache = true →
      ∃ cfg t last,
        s.getConfigByBoard boardId = some cfg
        ∧ s.getTicketByTicketId r.card_id = some t
        ∧ lastCfgOf t = some last
        ∧ Json.ser cfg.config_data = Json.ser last := by
  intro r hr hfc
  by_cases hemp : cards.isEmpty = true
  · simp only [analyze_list, hemp, if_true] at hrun
    simp only [Prod.mk.injEq, RunRet.ok.injEq] at hrun
    rw [← hrun.2.2] at hr
    exact absurd hr (by simp)
  · have hemp' : cards.isEmpty = false := by simpa using hemp
    obtain ⟨rs, svs, hal, hout⟩ :=
      analyze_list_ok_inv s env f boardId listId boardName listName abid cards s2 acts out
        hemp' hrun
    rw [hout] at hr
    rcases List.mem_append.mp hr with h1 | h1
    · exact classify_cache_sound abid boardId listId boardName listName s cards s rfl
        (fun tid => rfl) r h1
    · have hpm : ∀ kv ∈ ((classifyCards abid boardId listId boardName listName s cards).2.2.2.foldl
          (fun m p => insertReplace m p.id p) []), kv.2.id = kv.1 := by
        intro kv hkv
        exact foldl_insertReplace_entries (fun (kv : String × CardPayload) => kv.2.id = kv.1)
          (fun (p : CardPayload) => p.id) (fun (p : CardPayload) => p)
          ((classifyCards abid boardId listId boardName listName s cards).2.2.2)
          (fun p => rfl) [] (by intro kv hkv; cases hkv) kv hkv
      have hnc := actionLoop_ok_not_cached env f boardId listId boardName listName abid
        ((classifyCards abid boardId listId boardName listName s cards).2.2.2) _ hpm
        _ _ _ _ _ hal r h1
      rw [hfc] at hnc
      cases hnc

/-- Witness for C1: on `c1State` the single card is served from the
cache, and the serialized config equality holds at the stored ticket. -/
theorem analyzeList_cache_soundness_witness :
    c1Hit.from_cache = true
    ∧ ∃ cfg t last,
        c1State.getConfigByBoard "b1" = some cfg
        ∧ c1State.getTicketByTicketId c1Hit.card_id = some t
        ∧ lastCfgOf t = some last
        ∧ Json.ser cfg.config_data = Json.ser last :=
  ⟨rfl, analyzeList_cache_soundness c1State c1Env c1Fn "b1" "l1" "B1" "L1" none [c1Card]
    c1State [] c1Out rfl c1Hit (List.mem_cons_self _ _) rfl⟩
